import Mathlib

/-!
Verification of the data-access layer of the restaurant catalog service
(`restaurant/menu`): the identity validator, the aggregation queries, and the
record operations, embedded shallowly as executable Lean definitions, together
with proofs and refutations of the specified properties.
-/

namespace Restaurant

/-! ### Identity validator (`crud.is_valid_uuid`, crud.py lines 17-22)

The validator calls Python's `uuid.UUID(s, version=4)` and then compares
`str(uuid_obj)` with the input string.  `UUID(hex=s)` removes every occurrence
of `"urn:"` and then `"uuid:"`, strips curly braces from both ends, removes
every hyphen, requires exactly 32 hexadecimal digits, reads them as a 128-bit
integer, and (because `version=4` was passed) overwrites the version nibble
(nibble 12 counted from the most significant end) with 4 and the top two bits
of nibble 16 with `10`.  `str` re-renders the 128-bit value as 32 lowercase
hex digits grouped 8-4-4-4-12 with hyphens.  We keep the digit list instead of
the integer: for a 32-digit string the base-16 value and the digit list are in
bijection, so parsing digit-wise and re-rendering digit-wise computes the same
string.  (CPython's `int(x, 16)` also tolerates surrounding whitespace,
underscores and a sign; such inputs can never equal the canonical re-rendered
output, so the final boolean is unaffected by rejecting them at parse time.)
-/

/-- The digit characters accepted by `int(x, 16)`, with their values. -/
def hexTable : List (Char × Nat) :=
  [('0', 0), ('1', 1), ('2', 2), ('3', 3), ('4', 4), ('5', 5), ('6', 6), ('7', 7),
   ('8', 8), ('9', 9),
   ('a', 10), ('b', 11), ('c', 12), ('d', 13), ('e', 14), ('f', 15),
   ('A', 10), ('B', 11), ('C', 12), ('D', 13), ('E', 14), ('F', 15)]

def parseHexDigit (c : Char) : Option Nat := hexTable.lookup c

/-- Lowercase rendering of one nibble, as in `'%032x' % int`. -/
def formatHexDigit (n : Nat) : Char :=
  match n with
  | 0 => '0' | 1 => '1' | 2 => '2' | 3 => '3' | 4 => '4' | 5 => '5' | 6 => '6'
  | 7 => '7' | 8 => '8' | 9 => '9' | 10 => 'a' | 11 => 'b' | 12 => 'c' | 13 => 'd'
  | 14 => 'e' | _ => 'f'

/-- Digit-wise reading of a hex string, as `int(x, 16)` does on pure digits. -/
def parseHexList : List Char → Option (List Nat)
  | [] => some []
  | c :: rest =>
    match parseHexDigit c, parseHexList rest with
    | some d, some ds => some (d :: ds)
    | _, _ => none

/-- Worker for `replaceDrop`.  The recursion consumes at least one character
per step, so running it with the input's length as fuel never exhausts the
fuel; fuel only makes the recursion structural. -/
def replaceDropGo (pat : List Char) : Nat → List Char → List Char
  | _, [] => []
  | 0, l => l
  | fuel + 1, c :: rest =>
    if pat.isPrefixOf (c :: rest) then
      match pat with
      | [] => c :: replaceDropGo pat fuel rest
      | _ :: ps => replaceDropGo pat fuel (rest.drop ps.length)
    else c :: replaceDropGo pat fuel rest

/-- `str.replace(pat, '')`: drop every non-overlapping occurrence of `pat`,
scanning left to right. -/
def replaceDrop (pat : List Char) (l : List Char) : List Char :=
  replaceDropGo pat l.length l

def isBrace (c : Char) : Bool := c == '\x7b' || c == '\x7d'

/-- `str.strip('\x7b\x7d')`: remove braces from both ends. -/
def stripBraces (l : List Char) : List Char :=
  ((l.dropWhile isBrace).reverse.dropWhile isBrace).reverse

/-- The preprocessing pipeline of `uuid.UUID.__init__`:
`hex.replace('urn:', '').replace('uuid:', '').strip('\x7b\x7d').replace('-', '')`. -/
def uuidNormalize (s : List Char) : List Char :=
  (stripBraces (replaceDrop "uuid:".data (replaceDrop "urn:".data s))).filter
    (fun c => c != '-')

/-- The digit list of `UUID(hex=s)`: normalization, the 32-hex-digit length
check, and the digit parse. -/
def uuidParse (s : List Char) : Option (List Nat) :=
  if (uuidNormalize s).length == 32 then parseHexList (uuidNormalize s) else none

/-- `version=4` forcing: set the top two bits of nibble 16 to `10`
(clock_seq_hi_variant) and nibble 12 (time_hi_version top nibble) to 4. -/
def forceBits (l : List Nat) : List Nat :=
  (l.set 16 ((l.getD 16 0) % 4 + 8)).set 12 4

def joinHyphen : List (List Char) → List Char
  | [] => []
  | [g] => g
  | g :: gs => g ++ '-' :: joinHyphen gs

/-- `str(uuid_obj)`: the 32 lowercase digits in groups 8-4-4-4-12. -/
def uuidStr (l : List Nat) : List Char :=
  let d := l.map formatHexDigit
  joinHyphen [d.take 8, (d.drop 8).take 4, (d.drop 12).take 4, (d.drop 16).take 4, d.drop 20]

/-- `crud.is_valid_uuid` (crud.py lines 17-22): construct `UUID(s, version=4)`,
returning `False` on a parse error, else compare the canonical rendering with
the input. -/
def is_valid_uuid (s : String) : Bool :=
  match uuidParse s.data with
  | none => false
  | some l => uuidStr (forceBits l) == s.data

/-! ### The canonical-form predicate, from the specification's words

"canonical UUID-v4 textual form": five lowercase hexadecimal groups of sizes
8, 4, 4, 4 and 12 separated by single hyphens, with version digit `4` (first
digit of the third group) and variant digit `8`, `9`, `a` or `b` (first digit
of the fourth group). -/

def lowHexDigitChars : List Char :=
  ['0', '1', '2', '3', '4', '5', '6', '7', '8', '9']

def lowHexLetterChars : List Char := ['a', 'b', 'c', 'd', 'e', 'f']

def lowHexChars : List Char := lowHexDigitChars ++ lowHexLetterChars

def isLowHex (c : Char) : Bool := lowHexChars.contains c

def variantChars : List Char := ['8', '9', 'a', 'b']

/-- Split at every hyphen (`"a-b".split('-')` semantics: `n` hyphens give
`n+1` groups, empty groups included). -/
def splitHyphen : List Char → List (List Char)
  | [] => [[]]
  | c :: rest =>
    if c = '-' then [] :: splitHyphen rest
    else
      match splitHyphen rest with
      | [] => [[c]]
      | g :: gs => (c :: g) :: gs

/-- The specification's "syntactically valid unique identifier in canonical
UUID-v4 textual form", stated independently of the code. -/
def isCanonicalUuid4 (s : String) : Bool :=
  match splitHyphen s.data with
  | [g1, g2, g3, g4, g5] =>
    g1.length == 8 && g2.length == 4 && g3.length == 4 && g4.length == 4 &&
    g5.length == 12 &&
    (g1 ++ g2 ++ g3 ++ g4 ++ g5).all isLowHex &&
    g3.headD ' ' == '4' && variantChars.contains (g4.headD ' ')
  | _ => false

example : is_valid_uuid "2e9b4f3a-b9d4-4168-8697-1f51de26dd1e" = true := by decide
example : is_valid_uuid "11111" = false := by decide
example : is_valid_uuid "" = false := by decide
example : is_valid_uuid "2E9B4F3A-B9D4-4168-8697-1F51DE26DD1E" = false := by decide
example : is_valid_uuid "2e9b4f3a-b9d4-1168-8697-1f51de26dd1e" = false := by decide
example : is_valid_uuid "2e9b4f3ab9d441688697" = false := by decide
example : isCanonicalUuid4 "2e9b4f3a-b9d4-4168-8697-1f51de26dd1e" = true := by decide
example : isCanonicalUuid4 "2e9b4f3a-b9d4-4168-7697-1f51de26dd1e" = false := by decide

/-! ### Helper lemmas about lists -/

lemma take_len_append (a b : List Char) : (a ++ b).take a.length = a := by
  induction a with
  | nil => rfl
  | cons x t ih => simp [ih]

lemma drop_len_append (a b : List Char) : (a ++ b).drop a.length = b := by
  induction a with
  | nil => rfl
  | cons x t ih => simp [ih]

lemma get?_append_skip (a b : List Char) (n : Nat) :
    (a ++ b).get? (a.length + n) = b.get? n := by
  induction a with
  | nil => simp
  | cons x t ih => simpa [Nat.succ_add] using ih

lemma get?_set_self (l : List Nat) (i v : Nat) (h : i < l.length) :
    (l.set i v).get? i = some v := by
  induction l generalizing i with
  | nil => simp at h
  | cons x t ih =>
    cases i with
    | zero => rfl
    | succ j => simpa using ih j (by simpa using h)

lemma get?_set_other (l : List Nat) (i j v : Nat) (h : i ≠ j) :
    (l.set i v).get? j = l.get? j := by
  induction l generalizing i j with
  | nil => rfl
  | cons x t ih =>
    cases i with
    | zero => cases j with
      | zero => exact absurd rfl h
      | succ k => rfl
    | succ i' => cases j with
      | zero => rfl
      | succ k => simpa using ih i' k (by omega)

lemma set_id (l : List Nat) (i v : Nat) (h : l.get? i = some v) : l.set i v = l := by
  induction l generalizing i with
  | nil => rfl
  | cons x t ih =>
    cases i with
    | zero => simp_all
    | succ j => simpa using ih j (by simpa using h)

/-! ### Per-digit lemmas -/

lemma lookup_mem {l : List (Char × Nat)} {c : Char} {n : Nat}
    (h : l.lookup c = some n) : (c, n) ∈ l := by
  induction l with
  | nil => simp [List.lookup] at h
  | cons p t ih =>
    rw [List.lookup] at h
    split at h
    · rename_i hb
      simp only [Option.some.injEq] at h
      subst h
      have : c = p.1 := by simpa using hb
      simp [this]
    · exact List.mem_cons_of_mem _ (ih h)

lemma parseHexDigit_lt {c : Char} {n : Nat} (h : parseHexDigit c = some n) : n < 16 := by
  have hm := lookup_mem h
  fin_cases hm <;> omega

lemma formatHexDigit_lowHex (n : Nat) : isLowHex (formatHexDigit n) = true := by
  unfold formatHexDigit
  split <;> decide

lemma formatHexDigit_ne_hyphen (n : Nat) : formatHexDigit n ≠ '-' := by
  unfold formatHexDigit
  split <;> decide

lemma formatHexDigit_not_brace (n : Nat) : isBrace (formatHexDigit n) = false := by
  unfold formatHexDigit
  split <;> decide

lemma lowHex_roundtrip {c : Char} (h : isLowHex c = true) :
    ∃ n, parseHexDigit c = some n ∧ formatHexDigit n = c := by
  have hm : c ∈ lowHexDigitChars ++ lowHexLetterChars := by
    simpa [isLowHex, lowHexChars, List.contains] using h
  rcases List.mem_append.mp hm with hm' | hm' <;> fin_cases hm' <;> exact ⟨_, rfl, rfl⟩

lemma variant_roundtrip {c : Char} (h : variantChars.contains c = true) :
    ∃ n, parseHexDigit c = some n ∧ n % 4 + 8 = n ∧ formatHexDigit n = c := by
  have hm : c ∈ variantChars := by simpa [List.contains] using h
  fin_cases hm <;> exact ⟨_, rfl, by decide, rfl⟩

lemma formatHexDigit_variant (n : Nat) :
    variantChars.contains (formatHexDigit (n % 4 + 8)) = true := by
  have h : n % 4 = 3 ∨ n % 4 = 2 ∨ n % 4 = 1 ∨ n % 4 = 0 := by omega
  rcases h with h | h | h | h <;> rw [h] <;> decide

lemma lowHex_ne_hyphen {c : Char} (h : isLowHex c = true) : c ≠ '-' := by
  have hm : c ∈ lowHexDigitChars ++ lowHexLetterChars := by
    simpa [isLowHex, lowHexChars, List.contains] using h
  rcases List.mem_append.mp hm with hm' | hm' <;> fin_cases hm' <;> decide

lemma lowHex_ne_u {c : Char} (h : isLowHex c = true) : c ≠ 'u' := by
  have hm : c ∈ lowHexDigitChars ++ lowHexLetterChars := by
    simpa [isLowHex, lowHexChars, List.contains] using h
  rcases List.mem_append.mp hm with hm' | hm' <;> fin_cases hm' <;> decide

lemma lowHex_not_brace {c : Char} (h : isLowHex c = true) : isBrace c = false := by
  have hm : c ∈ lowHexDigitChars ++ lowHexLetterChars := by
    simpa [isLowHex, lowHexChars, List.contains] using h
  rcases List.mem_append.mp hm with hm' | hm' <;> fin_cases hm' <;> decide

/-! ### Lemmas about `parseHexList` -/

lemma parseHexList_length {l : List Char} {ds : List Nat}
    (h : parseHexList l = some ds) : ds.length = l.length := by
  induction l generalizing ds with
  | nil => simp [parseHexList] at h; simp [← h]
  | cons c t ih =>
    rw [parseHexList] at h
    rcases hc : parseHexDigit c with _ | d <;> rw [hc] at h
    · exact absurd h (by simp)
    · rcases ht : parseHexList t with _ | ds' <;> rw [ht] at h
      · exact absurd h (by simp)
      · simp only [Option.some.injEq] at h
        subst h
        simp [ih ht]

lemma parseHexList_get? {l : List Char} {ds : List Nat}
    (h : parseHexList l = some ds) (i : Nat) :
    ds.get? i = (l.get? i).bind parseHexDigit := by
  induction l generalizing ds i with
  | nil =>
    simp only [parseHexList, Option.some.injEq] at h
    subst h
    simp
  | cons c t ih =>
    rw [parseHexList] at h
    rcases hc : parseHexDigit c with _ | d <;> rw [hc] at h
    · exact absurd h (by simp)
    · rcases ht : parseHexList t with _ | ds' <;> rw [ht] at h
      · exact absurd h (by simp)
      · simp only [Option.some.injEq] at h
        subst h
        cases i with
        | zero => simp [hc]
        | succ j => simpa using ih ht j

lemma parseHexList_of_lowHex {l : List Char} (h : ∀ c ∈ l, isLowHex c = true) :
    ∃ ds, parseHexList l = some ds ∧ ds.map formatHexDigit = l := by
  induction l with
  | nil => exact ⟨[], rfl, rfl⟩
  | cons c t ih =>
    obtain ⟨d, hd, hfd⟩ := lowHex_roundtrip (h c (List.mem_cons_self c t))
    obtain ⟨ds, hds, hmap⟩ := ih (fun x hx => h x (List.mem_cons_of_mem c hx))
    exact ⟨d :: ds, by rw [parseHexList, hd, hds], by simp [hmap, hfd]⟩

/-! ### Lemmas about `splitHyphen` and `joinHyphen` -/

lemma splitHyphen_ne_nil (l : List Char) : splitHyphen l ≠ [] := by
  induction l with
  | nil => simp [splitHyphen]
  | cons c t ih =>
    rw [splitHyphen]
    split
    · simp
    · rcases h : splitHyphen t with _ | ⟨g, gs⟩
      · simp
      · simp

lemma joinHyphen_splitHyphen (l : List Char) : joinHyphen (splitHyphen l) = l := by
  induction l with
  | nil => rfl
  | cons c t ih =>
    rw [splitHyphen]
    split
    · rename_i hc
      subst hc
      rcases h : splitHyphen t with _ | ⟨g, gs⟩
      · exact absurd h (splitHyphen_ne_nil t)
      · rw [h] at ih
        cases gs with
        | nil => simpa [joinHyphen] using ih
        | cons g' gs' => simpa [joinHyphen] using ih
    · rcases h : splitHyphen t with _ | ⟨g, gs⟩
      · exact absurd h (splitHyphen_ne_nil t)
      · rw [h] at ih
        cases gs with
        | nil => simp only [joinHyphen] at ih ⊢; simpa using ih
        | cons g' gs' => simp only [joinHyphen] at ih ⊢; simpa using ih

lemma splitHyphen_append {g l : List Char} {h : List Char} {t : List (List Char)}
    (hg : ∀ c ∈ g, c ≠ '-') (hl : splitHyphen l = h :: t) :
    splitHyphen (g ++ l) = (g ++ h) :: t := by
  induction g with
  | nil => simpa using hl
  | cons c g' ih =>
    have hc : c ≠ '-' := hg c (List.mem_cons_self c g')
    rw [List.cons_append, splitHyphen]
    rw [if_neg hc]
    rw [ih (fun x hx => hg x (List.mem_cons_of_mem c hx))]
    simp

lemma splitHyphen_no_hyphen {g : List Char} (hg : ∀ c ∈ g, c ≠ '-') :
    splitHyphen g = [g] := by
  have := splitHyphen_append (l := []) (h := []) (t := []) hg rfl
  simpa using this

/-! ### Identity lemmas for the preprocessing pipeline -/

lemma replaceDropGo_id {p : Char} {ps : List Char} {l : List Char}
    (hp : p ∉ l) (fuel : Nat) : replaceDropGo (p :: ps) fuel l = l := by
  induction fuel generalizing l with
  | zero => cases l <;> rfl
  | succ n ih =>
    cases l with
    | nil => rfl
    | cons c rest =>
      have hne : p ≠ c := fun h => hp (h ▸ List.mem_cons_self c rest)
      have hpc : ((p :: ps).isPrefixOf (c :: rest)) = false := by
        simp [List.isPrefixOf, hne]
      have hrest : p ∉ rest := fun hmem => hp (List.mem_cons_of_mem c hmem)
      rw [replaceDropGo]
      simp only [hpc, Bool.false_eq_true, if_false]
      rw [ih hrest]

lemma replaceDrop_id {p : Char} {ps l : List Char} (hp : p ∉ l) :
    replaceDrop (p :: ps) l = l :=
  replaceDropGo_id hp l.length

lemma dropWhile_isBrace_id {l : List Char} (h : ∀ c ∈ l, isBrace c = false) :
    l.dropWhile isBrace = l := by
  cases l with
  | nil => rfl
  | cons a t => simp [List.dropWhile_cons, h a (List.mem_cons_self a t)]

lemma stripBraces_id {l : List Char} (h : ∀ c ∈ l, isBrace c = false) :
    stripBraces l = l := by
  unfold stripBraces
  rw [dropWhile_isBrace_id h]
  rw [dropWhile_isBrace_id (fun c hc => h c (List.mem_reverse.mp hc))]
  exact List.reverse_reverse l

lemma filter_ne_hyphen_id {g : List Char} (h : ∀ c ∈ g, isLowHex c = true) :
    g.filter (fun c => c != '-') = g :=
  List.filter_eq_self.mpr fun c hc => by simpa using lowHex_ne_hyphen (h c hc)

/-! ### More positional helpers -/

lemma get?_drop_zero (d : List Char) (n : Nat) : d.get? n = (d.drop n).get? 0 := by
  induction d generalizing n with
  | nil => simp
  | cons x t ih =>
    cases n with
    | zero => rfl
    | succ m => simp [ih m]

lemma get?_map_format (f : List Nat) (n : Nat) :
    (f.map formatHexDigit).get? n = (f.get? n).map formatHexDigit := by
  induction f generalizing n with
  | nil => simp
  | cons x t ih =>
    cases n with
    | zero => rfl
    | succ m => simp [ih m]

lemma drop_add_split (l : List Char) (n m : Nat) :
    l.drop (n + m) = (l.drop n).drop m := by
  induction n generalizing l with
  | zero => simp
  | succ k ih =>
    cases l with
    | nil => simp
    | cons x t =>
      rw [Nat.succ_add, List.drop_succ_cons, List.drop_succ_cons, ih t]

lemma getD_eq_get? (l : List Nat) (n : Nat) : l.getD n 0 = (l.get? n).getD 0 := by
  induction l generalizing n with
  | nil => simp
  | cons x t ih =>
    cases n with
    | zero => rfl
    | succ m => simp [ih m]

/-! ### Putting the pieces together for the validator -/

lemma mem_map_format_lowHex {f : List Nat} {c : Char}
    (hc : c ∈ f.map formatHexDigit) : isLowHex c = true := by
  obtain ⟨n, _, rfl⟩ := List.mem_map.mp hc
  exact formatHexDigit_lowHex n

lemma splitHyphen_hyphen_cons (l : List Char) :
    splitHyphen ('-' :: l) = [] :: splitHyphen l := by
  rw [splitHyphen, if_pos rfl]

lemma splitHyphen_join5 {a b c d e : List Char}
    (ha : ∀ x ∈ a, x ≠ '-') (hb : ∀ x ∈ b, x ≠ '-') (hc : ∀ x ∈ c, x ≠ '-')
    (hd : ∀ x ∈ d, x ≠ '-') (he : ∀ x ∈ e, x ≠ '-') :
    splitHyphen (a ++ '-' :: (b ++ '-' :: (c ++ '-' :: (d ++ '-' :: e)))) =
      [a, b, c, d, e] := by
  have h5 := splitHyphen_no_hyphen he
  have h4 : splitHyphen (d ++ '-' :: e) = [d, e] := by
    have hstep : splitHyphen ('-' :: e) = [] :: [e] := by
      rw [splitHyphen_hyphen_cons, h5]
    simpa using splitHyphen_append hd hstep
  have h3 : splitHyphen (c ++ '-' :: (d ++ '-' :: e)) = [c, d, e] := by
    have hstep : splitHyphen ('-' :: (d ++ '-' :: e)) = [] :: [d, e] := by
      rw [splitHyphen_hyphen_cons, h4]
    simpa using splitHyphen_append hc hstep
  have h2 : splitHyphen (b ++ '-' :: (c ++ '-' :: (d ++ '-' :: e))) = [b, c, d, e] := by
    have hstep : splitHyphen ('-' :: (c ++ '-' :: (d ++ '-' :: e))) = [] :: [c, d, e] := by
      rw [splitHyphen_hyphen_cons, h3]
    simpa using splitHyphen_append hb hstep
  have hstep : splitHyphen ('-' :: (b ++ '-' :: (c ++ '-' :: (d ++ '-' :: e)))) =
      [] :: [b, c, d, e] := by
    rw [splitHyphen_hyphen_cons, h2]
  simpa using splitHyphen_append ha hstep

lemma headD_take4_drop {d : List Char} {n : Nat} {x : Char} (hx : d.get? n = some x) :
    ((d.drop n).take 4).headD ' ' = x := by
  rw [get?_drop_zero] at hx
  rcases hdd : d.drop n with _ | ⟨y, ys⟩
  · rw [hdd] at hx; simp at hx
  · rw [hdd] at hx
    have hyx : y = x := by simpa using hx
    subst hyx
    rfl

lemma canonical_of_valid {s : String} (h : is_valid_uuid s = true) :
    isCanonicalUuid4 s = true := by
  unfold is_valid_uuid at h
  rcases hp : uuidParse s.data with _ | l
  · rw [hp] at h; exact absurd h (by simp)
  rw [hp] at h
  have hs : uuidStr (forceBits l) = s.data := by simpa using h
  unfold uuidParse at hp
  split at hp
  case isFalse => exact absurd hp (by simp)
  case isTrue hcond =>
  have hlen : l.length = 32 := by
    rw [parseHexList_length hp]
    simpa using hcond
  have hflen : (forceBits l).length = 32 := by simp [forceBits, hlen]
  have hdlen : ((forceBits l).map formatHexDigit).length = 32 := by simp [hflen]
  have hdhex : ∀ c ∈ (forceBits l).map formatHexDigit, isLowHex c = true :=
    fun c hc => mem_map_format_lowHex hc
  have hdnh : ∀ c ∈ (forceBits l).map formatHexDigit, c ≠ '-' :=
    fun c hc => lowHex_ne_hyphen (hdhex c hc)
  have hjoin : uuidStr (forceBits l) =
      ((forceBits l).map formatHexDigit).take 8 ++ '-' ::
      ((((forceBits l).map formatHexDigit).drop 8).take 4 ++ '-' ::
      ((((forceBits l).map formatHexDigit).drop 12).take 4 ++ '-' ::
      ((((forceBits l).map formatHexDigit).drop 16).take 4 ++ '-' ::
      ((forceBits l).map formatHexDigit).drop 20))) := by
    simp [uuidStr, joinHyphen]
  have hsplit : splitHyphen (uuidStr (forceBits l)) =
      [((forceBits l).map formatHexDigit).take 8,
       (((forceBits l).map formatHexDigit).drop 8).take 4,
       (((forceBits l).map formatHexDigit).drop 12).take 4,
       (((forceBits l).map formatHexDigit).drop 16).take 4,
       ((forceBits l).map formatHexDigit).drop 20] := by
    rw [hjoin]
    exact splitHyphen_join5
      (fun x hx => hdnh x (List.take_subset _ _ hx))
      (fun x hx => hdnh x (List.drop_subset _ _ (List.take_subset _ _ hx)))
      (fun x hx => hdnh x (List.drop_subset _ _ (List.take_subset _ _ hx)))
      (fun x hx => hdnh x (List.drop_subset _ _ (List.take_subset _ _ hx)))
      (fun x hx => hdnh x (List.drop_subset _ _ hx))
  have hf12 : (forceBits l).get? 12 = some 4 := by
    unfold forceBits
    exact get?_set_self _ 12 4 (by simp [hlen])
  have hf16 : (forceBits l).get? 16 = some (l.getD 16 0 % 4 + 8) := by
    unfold forceBits
    rw [get?_set_other _ 12 16 _ (by omega)]
    exact get?_set_self _ 16 _ (by simp [hlen])
  have hd12 : ((forceBits l).map formatHexDigit).get? 12 = some '4' := by
    rw [get?_map_format, hf12]
    rfl
  have hd16 : ((forceBits l).map formatHexDigit).get? 16 =
      some (formatHexDigit (l.getD 16 0 % 4 + 8)) := by
    rw [get?_map_format, hf16]
    rfl
  have hver : ((((forceBits l).map formatHexDigit).drop 12).take 4).headD ' ' = '4' :=
    headD_take4_drop hd12
  have hvar : variantChars.contains
      (((((forceBits l).map formatHexDigit).drop 16).take 4).headD ' ') = true := by
    rw [headD_take4_drop hd16]
    exact formatHexDigit_variant _
  have hall : ((((forceBits l).map formatHexDigit).take 8 ++
      (((forceBits l).map formatHexDigit).drop 8).take 4 ++
      (((forceBits l).map formatHexDigit).drop 12).take 4 ++
      (((forceBits l).map formatHexDigit).drop 16).take 4 ++
      ((forceBits l).map formatHexDigit).drop 20).all isLowHex) = true := by
    rw [List.all_eq_true]
    intro c hc
    simp only [List.mem_append] at hc
    rcases hc with ((((hc | hc) | hc) | hc) | hc)
    · exact hdhex c (List.take_subset _ _ hc)
    · exact hdhex c (List.drop_subset _ _ (List.take_subset _ _ hc))
    · exact hdhex c (List.drop_subset _ _ (List.take_subset _ _ hc))
    · exact hdhex c (List.drop_subset _ _ (List.take_subset _ _ hc))
    · exact hdhex c (List.drop_subset _ _ hc)
  unfold isCanonicalUuid4
  rw [← hs, hsplit]
  simp only [List.length_take, List.length_drop, hdlen, hall, hver, hvar,
    Bool.and_eq_true, beq_iff_eq]
  norm_num

lemma valid_of_canonical {s : String} (h : isCanonicalUuid4 s = true) :
    is_valid_uuid s = true := by
  unfold isCanonicalUuid4 at h
  split at h
  all_goals try exact absurd h Bool.false_ne_true
  rename_i g1 g2 g3 g4 g5 heq
  simp only [Bool.and_eq_true, beq_iff_eq, List.all_eq_true] at h
  obtain ⟨⟨⟨⟨⟨⟨⟨hlen1, hlen2⟩, hlen3⟩, hlen4⟩, hlen5⟩, hall⟩, hver⟩, hvar⟩ := h
  have hx1 : ∀ x ∈ g1, isLowHex x = true := fun x hx => hall x (by simp [hx])
  have hx2 : ∀ x ∈ g2, isLowHex x = true := fun x hx => hall x (by simp [hx])
  have hx3 : ∀ x ∈ g3, isLowHex x = true := fun x hx => hall x (by simp [hx])
  have hx4 : ∀ x ∈ g4, isLowHex x = true := fun x hx => hall x (by simp [hx])
  have hx5 : ∀ x ∈ g5, isLowHex x = true := fun x hx => hall x (by simp [hx])
  have hjoin : g1 ++ '-' :: (g2 ++ '-' :: (g3 ++ '-' :: (g4 ++ '-' :: g5))) = s.data := by
    have hj := joinHyphen_splitHyphen s.data
    rw [heq] at hj
    simpa [joinHyphen] using hj
  have hchar : ∀ c ∈ s.data, isLowHex c = true ∨ c = '-' := by
    intro c hc
    rw [← hjoin] at hc
    simp only [List.mem_append, List.mem_cons] at hc
    rcases hc with hc | hc | hc | hc | hc | hc | hc | hc | hc
    · exact Or.inl (hx1 c hc)
    · exact Or.inr hc
    · exact Or.inl (hx2 c hc)
    · exact Or.inr hc
    · exact Or.inl (hx3 c hc)
    · exact Or.inr hc
    · exact Or.inl (hx4 c hc)
    · exact Or.inr hc
    · exact Or.inl (hx5 c hc)
  have hu : 'u' ∉ s.data := by
    intro hm
    rcases hchar 'u' hm with h' | h'
    · exact absurd h' (by decide)
    · exact absurd h' (by decide)
  have hnb : ∀ c ∈ s.data, isBrace c = false := by
    intro c hm
    rcases hchar c hm with h' | h'
    · exact lowHex_not_brace h'
    · subst h'; decide
  have hurn : replaceDrop "urn:".data s.data = s.data := by
    rw [show "urn:".data = ['u', 'r', 'n', ':'] from rfl]
    exact replaceDrop_id hu
  have huuid : replaceDrop "uuid:".data s.data = s.data := by
    rw [show "uuid:".data = ['u', 'u', 'i', 'd', ':'] from rfl]
    exact replaceDrop_id hu
  have hstrip : stripBraces s.data = s.data := stripBraces_id hnb
  have hfilter : s.data.filter (fun c => c != '-') =
      g1 ++ (g2 ++ (g3 ++ (g4 ++ g5))) := by
    rw [← hjoin]
    simp only [List.filter_append, List.filter_cons, bne_self_eq_false,
      Bool.false_eq_true, if_false]
    rw [filter_ne_hyphen_id hx1, filter_ne_hyphen_id hx2, filter_ne_hyphen_id hx3,
      filter_ne_hyphen_id hx4, filter_ne_hyphen_id hx5]
  have hnorm : uuidNormalize s.data = g1 ++ (g2 ++ (g3 ++ (g4 ++ g5))) := by
    unfold uuidNormalize
    rw [hurn, huuid, hstrip, hfilter]
  have hglen : (g1 ++ (g2 ++ (g3 ++ (g4 ++ g5)))).length = 32 := by
    simp [hlen1, hlen2, hlen3, hlen4, hlen5]
  have hallG : ∀ c ∈ g1 ++ (g2 ++ (g3 ++ (g4 ++ g5))), isLowHex c = true := by
    intro c hc
    simp only [List.mem_append] at hc
    rcases hc with hc | hc | hc | hc | hc
    · exact hx1 c hc
    · exact hx2 c hc
    · exact hx3 c hc
    · exact hx4 c hc
    · exact hx5 c hc
  obtain ⟨ds, hds, hmap⟩ := parseHexList_of_lowHex hallG
  have hparse : uuidParse s.data = some ds := by
    unfold uuidParse
    rw [hnorm, hglen]
    simpa using hds
  rcases g3 with _ | ⟨c3, t3⟩
  · exact absurd hlen3 (by simp)
  have hc3 : c3 = '4' := by simpa using hver
  subst hc3
  rcases g4 with _ | ⟨c4, t4⟩
  · exact absurd hlen4 (by simp)
  have hc4 : variantChars.contains c4 = true := by simpa using hvar
  obtain ⟨n4, hn4p, hn4f, hn4fmt⟩ := variant_roundtrip hc4
  -- positional values inside the concatenated digit string
  have s1 := get?_append_skip g1 (g2 ++ (('4' :: t3) ++ ((c4 :: t4) ++ g5))) 4
  rw [hlen1] at s1
  norm_num at s1
  have s2 := get?_append_skip g2 (('4' :: t3) ++ ((c4 :: t4) ++ g5)) 0
  rw [hlen2] at s2
  norm_num at s2
  have hG12 : (g1 ++ (g2 ++ (('4' :: t3) ++ ((c4 :: t4) ++ g5)))).get? 12 = some '4' := by
    simpa using s1.trans s2
  have s3 := get?_append_skip g1 (g2 ++ (('4' :: t3) ++ ((c4 :: t4) ++ g5))) 8
  rw [hlen1] at s3
  norm_num at s3
  have s4 := get?_append_skip g2 (('4' :: t3) ++ ((c4 :: t4) ++ g5)) 4
  rw [hlen2] at s4
  norm_num at s4
  have s5 := get?_append_skip ('4' :: t3) ((c4 :: t4) ++ g5) 0
  rw [hlen3] at s5
  norm_num at s5
  have hG16 : (g1 ++ (g2 ++ (('4' :: t3) ++ ((c4 :: t4) ++ g5)))).get? 16 = some c4 := by
    simpa using s3.trans (s4.trans s5)
  have hds12 : ds.get? 12 = some 4 := by
    rw [parseHexList_get? hds 12, hG12]
    rfl
  have hds16 : ds.get? 16 = some n4 := by
    rw [parseHexList_get? hds 16, hG16]
    simpa using hn4p
  have hgetD : ds.getD 16 0 = n4 := by
    rw [getD_eq_get?, hds16]
    rfl
  have hforce : forceBits ds = ds := by
    unfold forceBits
    rw [hgetD, hn4f, set_id ds 16 n4 hds16, set_id ds 12 4 hds12]
  -- slicing the digit string back into its five groups
  have t1 : (g1 ++ (g2 ++ (('4' :: t3) ++ ((c4 :: t4) ++ g5)))).take 8 = g1 := by
    rw [← hlen1]
    exact take_len_append _ _
  have d1 : (g1 ++ (g2 ++ (('4' :: t3) ++ ((c4 :: t4) ++ g5)))).drop 8 =
      g2 ++ (('4' :: t3) ++ ((c4 :: t4) ++ g5)) := by
    rw [← hlen1]
    exact drop_len_append _ _
  have t2 : (g2 ++ (('4' :: t3) ++ ((c4 :: t4) ++ g5))).take 4 = g2 := by
    rw [← hlen2]
    exact take_len_append _ _
  have d2 : (g2 ++ (('4' :: t3) ++ ((c4 :: t4) ++ g5))).drop 4 =
      ('4' :: t3) ++ ((c4 :: t4) ++ g5) := by
    rw [← hlen2]
    exact drop_len_append _ _
  have t3' : (('4' :: t3) ++ ((c4 :: t4) ++ g5)).take 4 = '4' :: t3 := by
    rw [← hlen3]
    exact take_len_append _ _
  have d3 : (('4' :: t3) ++ ((c4 :: t4) ++ g5)).drop 4 = (c4 :: t4) ++ g5 := by
    rw [← hlen3]
    exact drop_len_append _ _
  have t4' : ((c4 :: t4) ++ g5).take 4 = c4 :: t4 := by
    rw [← hlen4]
    exact take_len_append _ _
  have d4 : ((c4 :: t4) ++ g5).drop 4 = g5 := by
    rw [← hlen4]
    exact drop_len_append _ _
  have d12 : (g1 ++ (g2 ++ (('4' :: t3) ++ ((c4 :: t4) ++ g5)))).drop 12 =
      ('4' :: t3) ++ ((c4 :: t4) ++ g5) := by
    rw [show (12 : Nat) = 8 + 4 from rfl, drop_add_split, d1, d2]
  have d16 : (g1 ++ (g2 ++ (('4' :: t3) ++ ((c4 :: t4) ++ g5)))).drop 16 =
      (c4 :: t4) ++ g5 := by
    rw [show (16 : Nat) = 12 + 4 from rfl, drop_add_split, d12, d3]
  have d20 : (g1 ++ (g2 ++ (('4' :: t3) ++ ((c4 :: t4) ++ g5)))).drop 20 = g5 := by
    rw [show (20 : Nat) = 16 + 4 from rfl, drop_add_split, d16, d4]
  have hstr : uuidStr ds = s.data := by
    simp only [uuidStr]
    rw [hmap, t1, d1, t2, d12, t3', d16, t4', d20]
    simpa [joinHyphen] using hjoin
  unfold is_valid_uuid
  simp only [hparse]
  rw [hforce, hstr]
  simp

/-- Claim C6: for every string input the identity validator
`is_valid_uuid` is total (a Lean function, so it cannot throw) and returns
`true` exactly on strings in canonical UUID-v4 textual form — five lowercase
hexadecimal groups 8-4-4-4-12 separated by hyphens with version digit 4 and
variant digit 8/9/a/b — and `false` on every other string. -/
theorem C6_validator_decides_canonical_uuid4 (s : String) :
    is_valid_uuid s = isCanonicalUuid4 s := by
  cases hv : is_valid_uuid s with
  | true => exact (canonical_of_valid hv).symm
  | false =>
    cases hc : isCanonicalUuid4 s with
    | true => exact absurd (valid_of_canonical hc) (by simp [hv])
    | false => rfl

/-! ### Data model (models.py)

`Menu(id, title, description)`, `SubMenu(id, title, description, menu_id)`,
`Dish(id, title, description, price, submenu_id)`.  Identifiers are UUID
columns, modelled as their canonical strings.  `price` is `Numeric(10, 2)`,
modelled as the integer number of cents it stores. -/

structure MenuRow where
  id : String
  title : String
  description : String
deriving DecidableEq, Repr

structure SubMenuRow where
  id : String
  title : String
  description : String
  menu_id : String
deriving DecidableEq, Repr

structure DishRow where
  id : String
  title : String
  description : String
  price : Int
  submenu_id : String
deriving DecidableEq, Repr

structure DB where
  menus : List MenuRow
  submenus : List SubMenuRow
  dishes : List DishRow
deriving DecidableEq, Repr

/-- A decimal literal `mant / 10 ^ exp`: the value of a parsed
`decimal.Decimal` payload field. -/
structure DecVal where
  mant : Int
  exp : Nat
deriving DecidableEq, Repr

/-- Rounding of a nonnegative decimal `m / 10 ^ e` to cents, half-up
(the fractional part one half rounds away from zero). -/
def quantNat (m e : Nat) : Nat :=
  if e ≤ 2 then m * 10 ^ (2 - e)
  else (m + 10 ^ (e - 2) / 2) / 10 ^ (e - 2)

/-- `Numeric(10, 2)` column semantics: the committed value is the supplied
decimal rounded to two fractional digits, ties away from zero (PostgreSQL
`numeric` rounding). -/
def quantizeHalfUp (d : DecVal) : Int :=
  if d.mant < 0 then -(quantNat d.mant.natAbs d.exp : Int)
  else (quantNat d.mant.natAbs d.exp : Int)

/-- `schemas.MenuBase` (schemas.py lines 8-11): `title` and `description`
required, `id` optional for the caller (the broken `Field(default=uuid.uuid4)`
function-object default is excluded from `model_dump(exclude_unset=True)`
whenever the caller omits `id`, so the column default generates the key). -/
structure MenuBasePayload where
  id : Option String
  title : String
  description : String
deriving DecidableEq, Repr

/-- `schemas.DishCreate` / `schemas.DishUpdate` (schemas.py lines 50-55):
`MenuBase` plus a required `price`. -/
structure DishPayload where
  id : Option String
  title : String
  description : String
  price : DecVal
deriving DecidableEq, Repr

/-- The failure modes of the record operations. -/
inductive Err where
  /-- `HTTPException(status_code, detail)`. -/
  | http (status : Nat) (detail : String)
  /-- An uncaught `sqlalchemy.exc.IntegrityError` raised at commit. -/
  | integrity
  /-- `UnmappedInstanceError` from `db.delete(None)`. -/
  | unmapped
  /-- `AttributeError` from `setattr(None, ...)`. -/
  | attrNone
deriving DecidableEq, Repr

def distinctStrings : List String → Bool
  | [] => true
  | x :: t => !(t.contains x) && distinctStrings t

/-- The foreign-key invariant of models.py: every `SubMenu.menu_id` references
an existing `Menu.id` and every `Dish.submenu_id` an existing `SubMenu.id` —
no orphaned child. -/
def orphanFree (db : DB) : Bool :=
  db.submenus.all (fun s => db.menus.any (fun m => m.id == s.menu_id)) &&
  db.dishes.all (fun d => db.submenus.any (fun s => s.id == d.submenu_id))

/-- The constraints PostgreSQL checks when a session commits inserts or
updates: primary-key uniqueness, `unique=True` title uniqueness per table,
and foreign-key integrity.  A violation raises `IntegrityError`. -/
def commitOk (db : DB) : Bool :=
  distinctStrings (db.menus.map (fun m => m.id)) &&
  distinctStrings (db.menus.map (fun m => m.title)) &&
  distinctStrings (db.submenus.map (fun s => s.id)) &&
  distinctStrings (db.submenus.map (fun s => s.title)) &&
  distinctStrings (db.dishes.map (fun d => d.id)) &&
  distinctStrings (db.dishes.map (fun d => d.title)) &&
  orphanFree db

/-! ### Aggregation query layer (crud.py lines 25-102, 134-146) -/

structure MenuProj where
  id : String
  title : String
  description : String
  submenus_count : Nat
  dishes_count : Nat
deriving DecidableEq, Repr

structure SubMenuProj where
  id : String
  title : String
  description : String
  dishes_count : Nat
deriving DecidableEq, Repr

/-- The correlated subquery
`select(func.count(Dish.id)).where(SubMenu.id == Dish.submenu_id)`. -/
def dishCountOf (db : DB) (sid : String) : Nat :=
  (db.dishes.filter (fun d => d.submenu_id == sid)).length

/-- `crud.get_submenus` (crud.py lines 25-35): submenus of a menu, each with
its correlated dish count. -/
def get_submenus (db : DB) (menu_id : String) : List SubMenuProj :=
  (db.submenus.filter (fun s => s.menu_id == menu_id)).map
    (fun s => ⟨s.id, s.title, s.description, dishCountOf db s.id⟩)

/-- `crud.get_submenu_by_id` (crud.py lines 38-48): the same projection
filtered by `menu_id` and `id`, with `.first()`. -/
def get_submenu_by_id (db : DB) (menu_id submenu_id : String) : Option SubMenuProj :=
  ((db.submenus.filter (fun s => s.menu_id == menu_id && s.id == submenu_id)).head?).map
    (fun s => ⟨s.id, s.title, s.description, dishCountOf db s.id⟩)

/-- `crud.get_submenu_by_title` (crud.py lines 51-52). -/
def get_submenu_by_title (db : DB) (title : String) : Option SubMenuRow :=
  (db.submenus.filter (fun s => s.title == title)).head?

/-- One menu's rows of `Menu LEFT OUTER JOIN SubMenu` (join condition
`SubMenu.menu_id == Menu.id` from the relationship): one row per child, or a
single null row when the menu has no children. -/
def menuJoinRows (db : DB) (m : MenuRow) : List (Option SubMenuRow) :=
  match db.submenus.filter (fun s => s.menu_id == m.id) with
  | [] => [none]
  | subs => subs.map some

/-- The correlated `dishes_count` subquery evaluated on one join row.  A null
submenu matches no dishes, so `count` (and `coalesce(count, 0)`) is 0. -/
def joinRowDishCount (db : DB) : Option SubMenuRow → Nat
  | none => 0
  | some s => dishCountOf db s.id

/-- Distinct values of a list in first-appearance order, with an accumulator
of values already seen. -/
def groupKeys : List Nat → List Nat → List Nat
  | _, [] => []
  | seen, k :: t =>
    if seen.contains k then groupKeys seen t
    else k :: groupKeys (k :: seen) t

/-- `GROUP BY (Menu.id, Menu.title, Menu.description, dishes_count)` applied
to one menu's join rows (crud.py lines 82 and 100 list the `dishes_count`
label as a grouping key).  One output row per distinct correlated
`dishes_count` value — in first-appearance order, PostgreSQL fixes none —
with `submenus_count = count(SubMenu.id)` counting the non-null submenus of
that group. -/
def menuGroupRows (db : DB) (m : MenuRow) : List MenuProj :=
  (groupKeys [] ((menuJoinRows db m).map (joinRowDishCount db))).map (fun k =>
    ⟨m.id, m.title, m.description,
     (((menuJoinRows db m).filter (fun r => joinRowDishCount db r == k)).filter
       (fun r => r.isSome)).length,
     k⟩)

/-- `crud.get_menus` (crud.py lines 70-84): the grouped left-join projection
over all menus (`coalesce(count, 0)` is the identity because `count` is never
null). -/
def get_menus (db : DB) : List MenuProj :=
  (db.menus.map (menuGroupRows db)).flatten

/-- `crud.get_menu_by_id` (crud.py lines 87-102): the same projection
filtered to one menu id, with `.first()`. -/
def get_menu_by_id (db : DB) (menu_id : String) : Option MenuProj :=
  ((db.menus.filter (fun m => m.id == menu_id)).map (menuGroupRows db)).flatten.head?

/-- `crud.get_menu_by_title` (crud.py lines 105-106). -/
def get_menu_by_title (db : DB) (title : String) : Option MenuRow :=
  (db.menus.filter (fun m => m.title == title)).head?

/-- `crud.check_menu_by_id` (crud.py lines 109-113). -/
def check_menu_by_id (db : DB) (menu_id : String) : Except Err (Option MenuRow) :=
  if is_valid_uuid menu_id then
    .ok ((db.menus.filter (fun m => m.id == menu_id)).head?)
  else .error (.http 422 "Wrong id type")

/-- `crud.check_submenu_by_id` (crud.py lines 116-120). -/
def check_submenu_by_id (db : DB) (submenu_id : String) : Except Err (Option SubMenuRow) :=
  if is_valid_uuid submenu_id then
    .ok ((db.submenus.filter (fun s => s.id == submenu_id)).head?)
  else .error (.http 422 "Wrong id type")

/-- The join condition of the dish queries: the dish's submenu is the
requested one and belongs to the requested menu. -/
def dishJoinOk (db : DB) (menu_id submenu_id : String) (d : DishRow) : Bool :=
  db.submenus.any (fun s => s.id == d.submenu_id && s.id == submenu_id &&
    db.menus.any (fun m => m.id == s.menu_id && m.id == menu_id))

/-- `crud.get_dishes` (crud.py lines 134-138). -/
def get_dishes (db : DB) (submenu_id menu_id : String) : List DishRow :=
  db.dishes.filter (dishJoinOk db menu_id submenu_id)

/-- `crud.get_dish_by_id` (crud.py lines 141-146). -/
def get_dish_by_id (db : DB) (submenu_id menu_id dish_id : String) : Option DishRow :=
  ((db.dishes.filter (fun d => d.id == dish_id)).filter
    (dishJoinOk db menu_id submenu_id)).head?

/-! ### Record operations layer (crud.py lines 55-247, routers.py)

Each mutating operation builds the post-commit state and runs the commit
constraint check; a failing check is the `IntegrityError` the storage raises.
`genId` stands for the `uuid4()` column default used when a payload leaves
`id` unset (the only nondeterministic input, passed explicitly). -/

structure StatusMsg where
  status : Bool
  message : String
deriving DecidableEq, Repr

/-- `crud.create_menu` (crud.py lines 123-131): insert and commit (no
exception handler), then re-read the aggregation projection. -/
def create_menu (db : DB) (genId : String) (menu : MenuBasePayload) :
    Except Err (Option MenuProj × DB) :=
  let row : MenuRow := ⟨menu.id.getD genId, menu.title, menu.description⟩
  let db' : DB := ⟨db.menus ++ [row], db.submenus, db.dishes⟩
  if commitOk db' then .ok (get_menu_by_id db' row.id, db')
  else .error .integrity

/-- `routers.create_menu` (routers.py lines 58-63): title uniqueness
pre-check, then the crud insert. -/
def router_create_menu (db : DB) (genId : String) (menu : MenuBasePayload) :
    Except Err (Option MenuProj × DB) :=
  match get_menu_by_title db menu.title with
  | some _ => .error (.http 400 "Title of Menu already registered")
  | none => create_menu db genId menu

/-- `crud.create_submenu` (crud.py lines 55-67): UUID gate on the path menu
id, insert with `menu_id` set from the path, commit (no handler), re-read. -/
def create_submenu (db : DB) (genId : String) (menu_id : String)
    (submenu : MenuBasePayload) : Except Err (Option SubMenuProj × DB) :=
  if is_valid_uuid menu_id then
    let row : SubMenuRow := ⟨submenu.id.getD genId, submenu.title, submenu.description, menu_id⟩
    let db' : DB := ⟨db.menus, db.submenus ++ [row], db.dishes⟩
    if commitOk db' then .ok (get_submenu_by_id db' menu_id row.id, db')
    else .error .integrity
  else .error (.http 422 "Wrong id type")

/-- `routers.create_submenu` (routers.py lines 66-74): parent existence
check, title uniqueness pre-check, then the crud insert. -/
def router_create_submenu (db : DB) (genId : String) (menu_id : String)
    (submenu : MenuBasePayload) : Except Err (Option SubMenuProj × DB) := do
  match (← check_menu_by_id db menu_id) with
  | none => .error (.http 400 "ID of Menu not registered")
  | some _ =>
    match get_submenu_by_title db submenu.title with
    | some _ => .error (.http 400 "Title of Submenu already registered")
    | none => create_submenu db genId menu_id submenu

/-- `crud.create_dish` (crud.py lines 149-167): UUID gates, insert with the
price quantized by the `Numeric(10, 2)` column, and a commit wrapped in
handlers that turn `UniqueViolation` and `IntegrityError` into the 500
duplicate-record error. -/
def create_dish (db : DB) (genId : String) (menu_id submenu_id : String)
    (dish : DishPayload) : Except Err (Option DishRow × DB) :=
  if is_valid_uuid menu_id && is_valid_uuid submenu_id then
    let row : DishRow := ⟨dish.id.getD genId, dish.title, dish.description,
      quantizeHalfUp dish.price, submenu_id⟩
    let db' : DB := ⟨db.menus, db.submenus, db.dishes ++ [row]⟩
    if commitOk db' then .ok (get_dish_by_id db' submenu_id menu_id row.id, db')
    else .error (.http 500 "A duplicate record already exists")
  else .error (.http 422 "Wrong id type")

/-- `routers.create_dish` (routers.py lines 77-85): menu and submenu
existence checks, then the crud insert (no title pre-check for dishes). -/
def router_create_dish (db : DB) (genId : String) (menu_id submenu_id : String)
    (dish : DishPayload) : Except Err (Option DishRow × DB) := do
  match (← check_menu_by_id db menu_id) with
  | none => .error (.http 400 "ID of Menu not registered")
  | some _ =>
    match (← check_submenu_by_id db submenu_id) with
    | none => .error (.http 400 "ID of Submenu not registered")
    | some _ => create_dish db genId menu_id submenu_id dish

/-- `crud.delete_menu_by_id` (crud.py lines 170-178) together with the
`ondelete="CASCADE"` actions declared in models.py: deleting a menu deletes
its submenus and their dishes in the same transaction. -/
def delete_menu_by_id (db : DB) (menu_id : String) : Except Err (StatusMsg × DB) :=
  if is_valid_uuid menu_id then
    match (db.menus.filter (fun m => m.id == menu_id)).head? with
    | none => .error (.http 404 "Menu not found")
    | some m =>
      let subIds := (db.submenus.filter (fun s => s.menu_id == m.id)).map (fun s => s.id)
      let db' : DB := ⟨db.menus.filter (fun r => !(r.id == m.id)),
                       db.submenus.filter (fun s => !(s.menu_id == m.id)),
                       db.dishes.filter (fun d => !(subIds.contains d.submenu_id))⟩
      .ok (⟨true, "The menu has been deleted"⟩, db')
  else .error (.http 422 "Wrong id type")

/-- `crud.delete_submenu_by_id` (crud.py lines 181-190): checks that the
*menu* exists, then calls `db.delete` on the submenu fetched by primary key
without an existence check — `db.delete(None)` raises
`UnmappedInstanceError`.  The cascade removes the submenu's dishes. -/
def delete_submenu_by_id (db : DB) (menu_id submenu_id : String) :
    Except Err (StatusMsg × DB) :=
  if is_valid_uuid menu_id && is_valid_uuid submenu_id then
    match (db.menus.filter (fun m => m.id == menu_id)).head? with
    | none => .error (.http 404 "Menu not found")
    | some _ =>
      match (db.submenus.filter (fun s => s.id == submenu_id)).head? with
      | none => .error .unmapped
      | some sm =>
        let db' : DB := ⟨db.menus,
                         db.submenus.filter (fun s => !(s.id == sm.id)),
                         db.dishes.filter (fun d => !(d.submenu_id == sm.id))⟩
        .ok (⟨true, "The submenu has been deleted"⟩, db')
  else .error (.http 422 "One or more wrong types id")

/-- `crud.delete_dish_by_id` (crud.py lines 193-205): existence checks for
all three path levels, each with its own message, then the delete. -/
def delete_dish_by_id (db : DB) (menu_id submenu_id dish_id : String) :
    Except Err (StatusMsg × DB) :=
  if is_valid_uuid menu_id && is_valid_uuid submenu_id && is_valid_uuid dish_id then
    match (db.menus.filter (fun m => m.id == menu_id)).head? with
    | none => .error (.http 404 "Menu not found")
    | some _ =>
      match (db.submenus.filter (fun s => s.id == submenu_id)).head? with
      | none => .error (.http 404 "Submenu not found")
      | some _ =>
        match (db.dishes.filter (fun d => d.id == dish_id)).head? with
        | none => .error (.http 404 "Dish not found")
        | some d =>
          let db' : DB := ⟨db.menus, db.submenus,
                           db.dishes.filter (fun r => !(r.id == d.id))⟩
          .ok (⟨true, "The dish has been deleted"⟩, db')
  else .error (.http 422 "One or more wrong types id")

/-- The `setattr` loop over `model_dump(exclude_unset=True)`: every required
field is overwritten, `id` only when the payload supplies it. -/
def applyMenuPayload (m : MenuRow) (p : MenuBasePayload) : MenuRow :=
  ⟨p.id.getD m.id, p.title, p.description⟩

def applySubMenuPayload (s : SubMenuRow) (p : MenuBasePayload) : SubMenuRow :=
  ⟨p.id.getD s.id, p.title, p.description, s.menu_id⟩

def applyDishPayload (d : DishRow) (p : DishPayload) : DishRow :=
  ⟨p.id.getD d.id, p.title, p.description, quantizeHalfUp p.price, d.submenu_id⟩

/-- `crud.update_menu` (crud.py lines 208-217).  Line 210 checks the
*payload* object (always truthy) instead of the fetched row, so a missing
menu reaches `setattr(None, ...)` and raises `AttributeError`. -/
def update_menu (db : DB) (menu_id : String) (menu : MenuBasePayload) :
    Except Err (Option MenuProj × DB) :=
  match (db.menus.filter (fun m => m.id == menu_id)).head? with
  | none => .error .attrNone
  | some m =>
    let m' := applyMenuPayload m menu
    let db' : DB := ⟨db.menus.map (fun r => if r.id == m.id then m' else r),
                     db.submenus, db.dishes⟩
    if commitOk db' then .ok (get_menu_by_id db' m'.id, db')
    else .error .integrity

/-- `crud.update_submenu` (crud.py lines 220-231): menu and submenu existence
checks, field merge, commit, re-read. -/
def update_submenu (db : DB) (menu_id submenu_id : String) (submenu : MenuBasePayload) :
    Except Err (Option SubMenuProj × DB) :=
  match (db.menus.filter (fun m => m.id == menu_id)).head? with
  | none => .error (.http 404 "Menu not found")
  | some _ =>
    match (db.submenus.filter (fun s => s.id == submenu_id)).head? with
    | none => .error (.http 404 "Submenu not found")
    | some sm =>
      let sm' := applySubMenuPayload sm submenu
      let db' : DB := ⟨db.menus,
                       db.submenus.map (fun r => if r.id == sm.id then sm' else r),
                       db.dishes⟩
      if commitOk db' then .ok (get_submenu_by_id db' menu_id sm'.id, db')
      else .error .integrity

/-- `crud.update_dish` (crud.py lines 234-247).  Line 240 reports a missing
dish with the message "Submenu not found". -/
def update_dish (db : DB) (menu_id submenu_id dish_id : String) (dish : DishPayload) :
    Except Err (Option DishRow × DB) :=
  match (db.menus.filter (fun m => m.id == menu_id)).head? with
  | none => .error (.http 404 "Menu not found")
  | some _ =>
    match (db.submenus.filter (fun s => s.id == submenu_id)).head? with
    | none => .error (.http 404 "Submenu not found")
    | some _ =>
      match (db.dishes.filter (fun d => d.id == dish_id)).head? with
      | none => .error (.http 404 "Submenu not found")
      | some d0 =>
        let d' := applyDishPayload d0 dish
        let db' : DB := ⟨db.menus, db.submenus,
                         db.dishes.map (fun r => if r.id == d0.id then d' else r)⟩
        if commitOk db' then .ok (get_dish_by_id db' submenu_id menu_id d'.id, db')
        else .error .integrity

/-- One HTTP mutation as dispatched by routers.py (the PATCH handlers call
the crud functions directly; the POST handlers add the pre-checks). -/
inductive Op where
  | createMenu (genId : String) (p : MenuBasePayload)
  | createSubmenu (genId : String) (menu_id : String) (p : MenuBasePayload)
  | createDish (genId : String) (menu_id submenu_id : String) (p : DishPayload)
  | updateMenu (menu_id : String) (p : MenuBasePayload)
  | updateSubmenu (menu_id submenu_id : String) (p : MenuBasePayload)
  | updateDish (menu_id submenu_id dish_id : String) (p : DishPayload)
  | deleteMenu (menu_id : String)
  | deleteSubmenu (menu_id submenu_id : String)
  | deleteDish (menu_id submenu_id dish_id : String)
deriving DecidableEq, Repr

/-- The state transition of one mutating HTTP operation, discarding the
response body. -/
def applyOp (db : DB) : Op → Except Err DB
  | .createMenu g p => (router_create_menu db g p).map (fun r => r.2)
  | .createSubmenu g mid p => (router_create_submenu db g mid p).map (fun r => r.2)
  | .createDish g mid sid p => (router_create_dish db g mid sid p).map (fun r => r.2)
  | .updateMenu mid p => (update_menu db mid p).map (fun r => r.2)
  | .updateSubmenu mid sid p => (update_submenu db mid sid p).map (fun r => r.2)
  | .updateDish mid sid did p => (update_dish db mid sid did p).map (fun r => r.2)
  | .deleteMenu mid => (delete_menu_by_id db mid).map (fun r => r.2)
  | .deleteSubmenu mid sid => (delete_submenu_by_id db mid sid).map (fun r => r.2)
  | .deleteDish mid sid did => (delete_dish_by_id db mid sid did).map (fun r => r.2)

/-! ### Concrete identifiers for scenario states (canonical UUID-v4 strings) -/

def uuidM1 : String := "11111111-1111-4111-8111-111111111111"
def uuidS1 : String := "22222222-2222-4222-8222-222222222222"
def uuidS2 : String := "33333333-3333-4333-8333-333333333333"
def uuidD1 : String := "44444444-4444-4444-8444-444444444444"
def uuidD2 : String := "55555555-5555-4555-8555-555555555555"
def uuidD3 : String := "66666666-6666-4666-8666-666666666666"

/-! ### Claim C1: getMenu's counts -/

/-- One menu, two submenus under it, one dish under each, built through the
HTTP-level create operations from the empty database. -/
def c1Chain : Except Err DB := do
  let (_, db1) ← router_create_menu ⟨[], [], []⟩ "g" ⟨some uuidM1, "menu1", "about menu1"⟩
  let (_, db2) ← router_create_submenu db1 "g" uuidM1 ⟨some uuidS1, "submenu1", "s1"⟩
  let (_, db3) ← router_create_submenu db2 "g" uuidM1 ⟨some uuidS2, "submenu2", "s2"⟩
  let (_, db4) ← router_create_dish db3 "g" uuidM1 uuidS1 ⟨some uuidD1, "dish1", "d1", ⟨1350, 2⟩⟩
  let (_, db5) ← router_create_dish db4 "g" uuidM1 uuidS2 ⟨some uuidD2, "dish2", "d2", ⟨1250, 2⟩⟩
  pure db5

def c1DB : DB :=
  ⟨[⟨uuidM1, "menu1", "about menu1"⟩],
   [⟨uuidS1, "submenu1", "s1", uuidM1⟩, ⟨uuidS2, "submenu2", "s2", uuidM1⟩],
   [⟨uuidD1, "dish1", "d1", 1350, uuidS1⟩, ⟨uuidD2, "dish2", "d2", 1250, uuidS2⟩]⟩

/-- Claim C1, refuted (evidence for the code bug): in the reachable state
with one menu, two submenus under it, and one dish under each submenu,
`get_menu_by_id` returns one row with `submenus_count = 2` but
`dishes_count = 1`, although 2 dishes lie under the menu through the
two-level join.  Because crud.py line 100 lists the correlated per-submenu
`dishes_count` label in `group_by`, the projection reports a group's
per-submenu dish count, not the menu-level total that the claim states. -/
theorem C1_getMenu_dishes_count_not_two_level :
    c1Chain = .ok c1DB ∧
    get_menu_by_id c1DB uuidM1 = some ⟨uuidM1, "menu1", "about menu1", 2, 1⟩ ∧
    (c1DB.dishes.filter (fun d =>
      c1DB.submenus.any (fun s => s.menu_id == uuidM1 && s.id == d.submenu_id))).length = 2 :=
  ⟨rfl, by decide, by decide⟩

/-! ### Claim C2: listMenus' shape -/

/-- One menu, two submenus, one dish under the first and two under the
second, built through the HTTP-level create operations. -/
def c2Chain : Except Err DB := do
  let (_, db1) ← router_create_menu ⟨[], [], []⟩ "g" ⟨some uuidM1, "menu1", "about menu1"⟩
  let (_, db2) ← router_create_submenu db1 "g" uuidM1 ⟨some uuidS1, "submenu1", "s1"⟩
  let (_, db3) ← router_create_submenu db2 "g" uuidM1 ⟨some uuidS2, "submenu2", "s2"⟩
  let (_, db4) ← router_create_dish db3 "g" uuidM1 uuidS1 ⟨some uuidD1, "dish1", "d1", ⟨1350, 2⟩⟩
  let (_, db5) ← router_create_dish db4 "g" uuidM1 uuidS2 ⟨some uuidD2, "dish2", "d2", ⟨1250, 2⟩⟩
  let (_, db6) ← router_create_dish db5 "g" uuidM1 uuidS2 ⟨some uuidD3, "dish3", "d3", ⟨990, 2⟩⟩
  pure db6

def c2DB : DB :=
  ⟨[⟨uuidM1, "menu1", "about menu1"⟩],
   [⟨uuidS1, "submenu1", "s1", uuidM1⟩, ⟨uuidS2, "submenu2", "s2", uuidM1⟩],
   [⟨uuidD1, "dish1", "d1", 1350, uuidS1⟩, ⟨uuidD2, "dish2", "d2", 1250, uuidS2⟩,
    ⟨uuidD3, "dish3", "d3", 990, uuidS2⟩]⟩

/-- Claim C2, refuted (evidence for the code bug): in the reachable state
with one stored menu whose two submenus have different dish counts (1 and 2),
`get_menus` returns two projection rows for that single menu — the grouping
key of crud.py line 82 includes the per-submenu `dishes_count`, so the
menu's join rows split into one output row per distinct dish count, each
counting only the submenus of its own group. -/
theorem C2_listMenus_not_one_projection_per_menu :
    c2Chain = .ok c2DB ∧
    c2DB.menus.length = 1 ∧
    get_menus c2DB =
      [⟨uuidM1, "menu1", "about menu1", 1, 1⟩, ⟨uuidM1, "menu1", "about menu1", 1, 2⟩] :=
  ⟨rfl, by decide, by decide⟩

/-! ### Claim C4: per-level not-found checks on delete -/

def c4DB : DB := ⟨[⟨uuidM1, "menu1", "about menu1"⟩], [], []⟩

/-- Claim C4, refuted (evidence for the code bug): with syntactically valid
path ids, an existing menu and no matching submenu, `delete_submenu_by_id`
does not fail with "Submenu not found" — crud.py line 185 fetches the
submenu without an existence check and line 186 calls `db.delete(None)`,
which raises `UnmappedInstanceError` (a server error).  `delete_dish_by_id`
on the same state does verify the submenu level and fails with the specific
message. -/
theorem C4_delete_submenu_skips_existence_check :
    delete_submenu_by_id c4DB uuidM1 uuidS1 = .error .unmapped ∧
    delete_dish_by_id c4DB uuidM1 uuidS1 uuidD1 = .error (.http 404 "Submenu not found") :=
  ⟨rfl, rfl⟩

/-! ### Claim C5: not-found behavior of updates -/

def c5DB : DB :=
  ⟨[⟨uuidM1, "menu1", "about menu1"⟩], [⟨uuidS1, "submenu1", "s1", uuidM1⟩], []⟩

/-- Claim C5, refuted (evidence for the code bug): updating a missing dish
whose menu and submenu exist fails with 404 "Submenu not found" (crud.py
line 240 names the wrong entity), and updating a missing menu raises
`AttributeError` instead of any not-found error (crud.py line 210 checks the
payload, which is always truthy, instead of the fetched row).  Only
`update_submenu` behaves as claimed. -/
theorem C5_update_not_found_messages_wrong :
    update_dish c5DB uuidM1 uuidS1 uuidD1 ⟨none, "dish1", "d1", ⟨7777, 3⟩⟩ =
      .error (.http 404 "Submenu not found") ∧
    update_menu ⟨[], [], []⟩ uuidM1 ⟨none, "menu1", "about menu1"⟩ = .error .attrNone ∧
    update_submenu c5DB uuidM1 uuidS2 ⟨none, "submenu2", "s2"⟩ =
      .error (.http 404 "Submenu not found") :=
  ⟨rfl, rfl, rfl⟩

/-! ### Claim C3: cascade delete and the no-orphan invariant -/

lemma head?_filter_prop {α : Type} (p : α → Bool) (l : List α) (x : α)
    (h : (l.filter p).head? = some x) : x ∈ l ∧ p x = true := by
  have hx : x ∈ l.filter p := by
    cases hf : l.filter p with
    | nil => rw [hf] at h; exact absurd h (by simp)
    | cons a t =>
      rw [hf] at h
      simp only [List.head?] at h
      injection h with h
      subst h
      exact hf ▸ List.mem_cons_self a t
  exact List.mem_filter.mp hx

lemma map_snd_ok {α : Type} {e : Except Err (α × DB)} {db' : DB}
    (h : e.map (fun r => r.2) = .ok db') : ∃ a, e = .ok (a, db') := by
  cases e with
  | error err => exact absurd h (by simp [Except.map])
  | ok pr =>
    refine ⟨pr.1, ?_⟩
    simp only [Except.map, Except.ok.injEq] at h
    simp [← h]

lemma orphanFree_of_commitOk {db : DB} (h : commitOk db = true) :
    orphanFree db = true := by
  simp only [commitOk, Bool.and_eq_true] at h
  exact h.2

lemma create_menu_ok_commit {db : DB} {g : String} {p : MenuBasePayload}
    {pr : Option MenuProj × DB} (h : create_menu db g p = .ok pr) :
    commitOk pr.2 = true := by
  simp only [create_menu] at h
  split at h
  · rename_i hc
    simp only [Except.ok.injEq] at h
    rw [← h]
    exact hc
  · exact absurd h (by simp)

lemma router_create_menu_ok_commit {db : DB} {g : String} {p : MenuBasePayload}
    {pr : Option MenuProj × DB} (h : router_create_menu db g p = .ok pr) :
    commitOk pr.2 = true := by
  unfold router_create_menu at h
  split at h
  · exact absurd h (by simp)
  · exact create_menu_ok_commit h

lemma create_submenu_ok_commit {db : DB} {g mid : String} {p : MenuBasePayload}
    {pr : Option SubMenuProj × DB} (h : create_submenu db g mid p = .ok pr) :
    commitOk pr.2 = true := by
  simp only [create_submenu] at h
  split at h
  · split at h
    · rename_i hc
      simp only [Except.ok.injEq] at h
      rw [← h]
      exact hc
    · exact absurd h (by simp)
  · exact absurd h (by simp)

lemma router_create_submenu_ok_commit {db : DB} {g mid : String} {p : MenuBasePayload}
    {pr : Option SubMenuProj × DB} (h : router_create_submenu db g mid p = .ok pr) :
    commitOk pr.2 = true := by
  unfold router_create_submenu at h
  rcases hc : check_menu_by_id db mid with e | o
  · rw [hc] at h
    exact absurd h (by simp [bind, Except.bind])
  · rw [hc] at h
    simp only [bind, Except.bind] at h
    rcases o with _ | row
    · exact absurd h (by simp)
    · rcases hg : get_submenu_by_title db p.title with _ | t
      · rw [hg] at h
        exact create_submenu_ok_commit h
      · rw [hg] at h
        exact absurd h (by simp)

lemma create_dish_ok_commit {db : DB} {g mid sid : String} {p : DishPayload}
    {pr : Option DishRow × DB} (h : create_dish db g mid sid p = .ok pr) :
    commitOk pr.2 = true := by
  simp only [create_dish] at h
  split at h
  · split at h
    · rename_i hc
      simp only [Except.ok.injEq] at h
      rw [← h]
      exact hc
    · exact absurd h (by simp)
  · exact absurd h (by simp)

lemma router_create_dish_ok_commit {db : DB} {g mid sid : String} {p : DishPayload}
    {pr : Option DishRow × DB} (h : router_create_dish db g mid sid p = .ok pr) :
    commitOk pr.2 = true := by
  unfold router_create_dish at h
  rcases hc : check_menu_by_id db mid with e | o
  · rw [hc] at h
    exact absurd h (by simp [bind, Except.bind])
  · rw [hc] at h
    simp only [bind, Except.bind] at h
    rcases o with _ | row
    · exact absurd h (by simp)
    · rcases hs : check_submenu_by_id db sid with e2 | o2
      · rw [hs] at h
        exact absurd h (by simp [bind, Except.bind])
      · rw [hs] at h
        simp only [bind, Except.bind] at h
        rcases o2 with _ | srow
        · exact absurd h (by simp)
        · exact create_dish_ok_commit h

lemma update_menu_ok_commit {db : DB} {mid : String} {p : MenuBasePayload}
    {pr : Option MenuProj × DB} (h : update_menu db mid p = .ok pr) :
    commitOk pr.2 = true := by
  simp only [update_menu] at h
  split at h
  · exact absurd h (by simp)
  · split at h
    · rename_i hc
      simp only [Except.ok.injEq] at h
      rw [← h]
      exact hc
    · exact absurd h (by simp)

lemma update_submenu_ok_commit {db : DB} {mid sid : String} {p : MenuBasePayload}
    {pr : Option SubMenuProj × DB} (h : update_submenu db mid sid p = .ok pr) :
    commitOk pr.2 = true := by
  simp only [update_submenu] at h
  split at h
  · exact absurd h (by simp)
  · split at h
    · exact absurd h (by simp)
    · split at h
      · rename_i hc
        simp only [Except.ok.injEq] at h
        rw [← h]
        exact hc
      · exact absurd h (by simp)

lemma update_dish_ok_commit {db : DB} {mid sid did : String} {p : DishPayload}
    {pr : Option DishRow × DB} (h : update_dish db mid sid did p = .ok pr) :
    commitOk pr.2 = true := by
  simp only [update_dish] at h
  split at h
  · exact absurd h (by simp)
  · split at h
    · exact absurd h (by simp)
    · split at h
      · exact absurd h (by simp)
      · split at h
        · rename_i hc
          simp only [Except.ok.injEq] at h
          rw [← h]
          exact hc
        · exact absurd h (by simp)

lemma delete_menu_ok_char {db : DB} {mid : String} {st : StatusMsg} {db' : DB}
    (h : delete_menu_by_id db mid = .ok (st, db')) :
    ∃ m, m ∈ db.menus ∧ m.id = mid ∧
      db' = ⟨db.menus.filter (fun r => !(r.id == m.id)),
             db.submenus.filter (fun s => !(s.menu_id == m.id)),
             db.dishes.filter (fun d =>
               !(((db.submenus.filter (fun s => s.menu_id == m.id)).map
                  (fun s => s.id)).contains d.submenu_id))⟩ := by
  unfold delete_menu_by_id at h
  split at h
  · split at h
    · exact absurd h (by simp)
    · rename_i m hm
      obtain ⟨hmem, hpred⟩ := head?_filter_prop _ _ _ hm
      refine ⟨m, hmem, by simpa using hpred, ?_⟩
      simp only [Except.ok.injEq, Prod.mk.injEq] at h
      exact h.2.symm
  · exact absurd h (by simp)

lemma delete_submenu_ok_char {db : DB} {mid sid : String} {st : StatusMsg} {db' : DB}
    (h : delete_submenu_by_id db mid sid = .ok (st, db')) :
    ∃ sm, sm ∈ db.submenus ∧ sm.id = sid ∧
      db' = ⟨db.menus,
             db.submenus.filter (fun s => !(s.id == sm.id)),
             db.dishes.filter (fun d => !(d.submenu_id == sm.id))⟩ := by
  unfold delete_submenu_by_id at h
  split at h
  · split at h
    · exact absurd h (by simp)
    · split at h
      · exact absurd h (by simp)
      · rename_i sm hsm
        obtain ⟨hmem, hpred⟩ := head?_filter_prop _ _ _ hsm
        refine ⟨sm, hmem, by simpa using hpred, ?_⟩
        simp only [Except.ok.injEq, Prod.mk.injEq] at h
        exact h.2.symm
  · exact absurd h (by simp)

lemma delete_dish_ok_char {db : DB} {mid sid did : String} {st : StatusMsg} {db' : DB}
    (h : delete_dish_by_id db mid sid did = .ok (st, db')) :
    ∃ dd, dd ∈ db.dishes ∧ dd.id = did ∧
      db' = ⟨db.menus, db.submenus,
             db.dishes.filter (fun r => !(r.id == dd.id))⟩ := by
  unfold delete_dish_by_id at h
  split at h
  · split at h
    · exact absurd h (by simp)
    · split at h
      · exact absurd h (by simp)
      · split at h
        · exact absurd h (by simp)
        · rename_i dd hdd
          obtain ⟨hmem, hpred⟩ := head?_filter_prop _ _ _ hdd
          refine ⟨dd, hmem, by simpa using hpred, ?_⟩
          simp only [Except.ok.injEq, Prod.mk.injEq] at h
          exact h.2.symm
  · exact absurd h (by simp)

lemma orphanFree_iff {db : DB} : orphanFree db = true ↔
    (∀ s ∈ db.submenus, ∃ m ∈ db.menus, m.id = s.menu_id) ∧
    (∀ d ∈ db.dishes, ∃ s ∈ db.submenus, s.id = d.submenu_id) := by
  simp [orphanFree, List.all_eq_true, List.any_eq_true]

/-- Claim C3: after any successful mutating operation no orphaned child
persists — every SubMenu references an existing Menu and every Dish an
existing SubMenu — and a successful Menu delete removes every SubMenu whose
`menu_id` equals the deleted menu's id together with every Dish under those
SubMenus; afterwards `get_submenu_by_id` and `get_dish_by_id` under that menu
return the not-found signal for every id.  Each operation is one state
transition of the embedding, so the subtree removal is atomic by
construction. -/
theorem C3_cascade_delete_and_no_orphans (db : DB) (op : Op) (db' : DB)
    (hInv : orphanFree db = true) (h : applyOp db op = .ok db') :
    orphanFree db' = true ∧
    (∀ mid, op = .deleteMenu mid →
      (∀ s' ∈ db'.submenus, s'.menu_id ≠ mid) ∧
      (∀ d ∈ db.dishes, ∀ s ∈ db.submenus, s.menu_id = mid → d.submenu_id = s.id →
        d ∉ db'.dishes) ∧
      (∀ sid, get_submenu_by_id db' mid sid = none) ∧
      (∀ sid did, get_dish_by_id db' sid mid did = none)) := by
  cases op with
  | createMenu g p =>
    obtain ⟨a, ha⟩ := map_snd_ok h
    exact ⟨orphanFree_of_commitOk (router_create_menu_ok_commit ha),
           fun mid hmid => Op.noConfusion hmid⟩
  | createSubmenu g mid p =>
    obtain ⟨a, ha⟩ := map_snd_ok h
    exact ⟨orphanFree_of_commitOk (router_create_submenu_ok_commit ha),
           fun mid' hmid => Op.noConfusion hmid⟩
  | createDish g mid sid p =>
    obtain ⟨a, ha⟩ := map_snd_ok h
    exact ⟨orphanFree_of_commitOk (router_create_dish_ok_commit ha),
           fun mid' hmid => Op.noConfusion hmid⟩
  | updateMenu mid p =>
    obtain ⟨a, ha⟩ := map_snd_ok h
    exact ⟨orphanFree_of_commitOk (update_menu_ok_commit ha),
           fun mid' hmid => Op.noConfusion hmid⟩
  | updateSubmenu mid sid p =>
    obtain ⟨a, ha⟩ := map_snd_ok h
    exact ⟨orphanFree_of_commitOk (update_submenu_ok_commit ha),
           fun mid' hmid => Op.noConfusion hmid⟩
  | updateDish mid sid did p =>
    obtain ⟨a, ha⟩ := map_snd_ok h
    exact ⟨orphanFree_of_commitOk (update_dish_ok_commit ha),
           fun mid' hmid => Op.noConfusion hmid⟩
  | deleteSubmenu mid sid =>
    obtain ⟨st, ha⟩ := map_snd_ok h
    obtain ⟨sm, hsmem, hsid_eq, hdb⟩ := delete_submenu_ok_char ha
    subst hdb
    refine ⟨?_, fun mid' hmid' => Op.noConfusion hmid'⟩
    rw [orphanFree_iff] at hInv ⊢
    obtain ⟨hs, hd⟩ := hInv
    constructor
    · intro s' hs'
      exact hs s' (List.mem_filter.mp hs').1
    · intro d hd'
      obtain ⟨hdmem, hdpred⟩ := List.mem_filter.mp hd'
      obtain ⟨s, hsmem2, hseq⟩ := hd d hdmem
      refine ⟨s, List.mem_filter.mpr ⟨hsmem2, ?_⟩, hseq⟩
      have hne : d.submenu_id ≠ sm.id := by simpa using hdpred
      simp [hseq, hne]
  | deleteDish mid sid did =>
    obtain ⟨st, ha⟩ := map_snd_ok h
    obtain ⟨dd, hddmem, hdid_eq, hdb⟩ := delete_dish_ok_char ha
    subst hdb
    refine ⟨?_, fun mid' hmid' => Op.noConfusion hmid'⟩
    rw [orphanFree_iff] at hInv ⊢
    obtain ⟨hs, hd⟩ := hInv
    exact ⟨hs, fun d hd' => hd d (List.mem_filter.mp hd').1⟩
  | deleteMenu mid =>
    obtain ⟨st, ha⟩ := map_snd_ok h
    obtain ⟨m, hmem, hmid_eq, hdb⟩ := delete_menu_ok_char ha
    subst hdb
    subst hmid_eq
    constructor
    · rw [orphanFree_iff] at hInv ⊢
      obtain ⟨hs, hd⟩ := hInv
      constructor
      · intro s' hs'
        obtain ⟨hsmem, hspred⟩ := List.mem_filter.mp hs'
        obtain ⟨m2, hm2, hm2eq⟩ := hs s' hsmem
        have hne : s'.menu_id ≠ m.id := by simpa using hspred
        refine ⟨m2, List.mem_filter.mpr ⟨hm2, ?_⟩, hm2eq⟩
        simp [hm2eq, hne]
      · intro d hd'
        obtain ⟨hdmem, hdpred⟩ := List.mem_filter.mp hd'
        obtain ⟨s, hsmem2, hseq⟩ := hd d hdmem
        refine ⟨s, List.mem_filter.mpr ⟨hsmem2, ?_⟩, hseq⟩
        by_contra hcon
        simp only [Bool.not_eq_true', beq_eq_false_iff_ne, ne_eq, not_not] at hcon
        have hsf : s ∈ db.submenus.filter (fun s => s.menu_id == m.id) :=
          List.mem_filter.mpr ⟨hsmem2, by simp [hcon]⟩
        have hin : s.id ∈ (db.submenus.filter
            (fun s => s.menu_id == m.id)).map (fun s => s.id) :=
          List.mem_map_of_mem _ hsf
        have hcontains : (((db.submenus.filter (fun s => s.menu_id == m.id)).map
            (fun s => s.id)).contains d.submenu_id) = true := by
          rw [← hseq]
          simpa [List.contains] using hin
        simp [hcontains] at hdpred
        exact hdpred s hsmem2 hcon hseq
    · intro mid' hmid'
      injection hmid' with hmid'
      subst hmid'
      have hallgone : ∀ s' ∈ (db.submenus.filter (fun s => !(s.menu_id == m.id))),
          s'.menu_id ≠ m.id := by
        intro s' hs'
        simpa using (List.mem_filter.mp hs').2
      refine ⟨hallgone, ?_, ?_, ?_⟩
      · intro d hdmem s hsmem2 hsmenu hdsub hd'
        obtain ⟨-, hdpred⟩ := List.mem_filter.mp hd'
        have hsf : s ∈ db.submenus.filter (fun s => s.menu_id == m.id) :=
          List.mem_filter.mpr ⟨hsmem2, by simp [hsmenu]⟩
        have hin : s.id ∈ (db.submenus.filter
            (fun s => s.menu_id == m.id)).map (fun s => s.id) :=
          List.mem_map_of_mem _ hsf
        have hcontains : (((db.submenus.filter (fun s => s.menu_id == m.id)).map
            (fun s => s.id)).contains d.submenu_id) = true := by
          rw [hdsub]
          simpa [List.contains] using hin
        simp [hcontains] at hdpred
        exact hdpred s hsmem2 hsmenu hdsub.symm
      · intro sid
        unfold get_submenu_by_id
        have hnil : (db.submenus.filter (fun s => !(s.menu_id == m.id))).filter
            (fun s => s.menu_id == m.id && s.id == sid) = [] := by
          rw [List.filter_eq_nil_iff]
          intro s' hs'
          have := hallgone s' hs'
          simp [this]
        simp only [hnil]
        rfl
      · intro sid did
        unfold get_dish_by_id
        have hnomenu : ∀ m'' ∈ db.menus.filter (fun r => !(r.id == m.id)),
            m''.id ≠ m.id := by
          intro m'' hm''
          simpa using (List.mem_filter.mp hm'').2
        have hnil : ∀ (l : List DishRow), l.filter
            (dishJoinOk ⟨db.menus.filter (fun r => !(r.id == m.id)),
              db.submenus.filter (fun s => !(s.menu_id == m.id)),
              db.dishes.filter (fun d =>
                !(((db.submenus.filter (fun s => s.menu_id == m.id)).map
                   (fun s => s.id)).contains d.submenu_id))⟩ m.id sid) = [] := by
          intro l
          rw [List.filter_eq_nil_iff]
          intro d hd'
          unfold dishJoinOk
          simp only [List.any_eq_true, Bool.and_eq_true, not_exists]
          rintro s' ⟨hs'mem, ⟨-, -⟩, m'', hm''mem, -, hm''id⟩
          exact absurd (by simpa using hm''id) (hnomenu m'' hm''mem)
        simp only [hnil]
        rfl

def c3DB : DB :=
  ⟨[⟨uuidM1, "menu1", "about menu1"⟩],
   [⟨uuidS1, "submenu1", "s1", uuidM1⟩],
   [⟨uuidD1, "dish1", "d1", 1350, uuidS1⟩]⟩

/-- Witness for C3 at a concrete state: deleting the only menu removes its
submenu and dish, and the claimed properties hold of the resulting empty
database. -/
theorem C3_cascade_delete_and_no_orphans_witness :
    orphanFree c3DB = true ∧
    applyOp c3DB (Op.deleteMenu uuidM1) = .ok ⟨[], [], []⟩ ∧
    (orphanFree (⟨[], [], []⟩ : DB) = true ∧
     (∀ mid, Op.deleteMenu uuidM1 = .deleteMenu mid →
       (∀ s' ∈ (⟨[], [], []⟩ : DB).submenus, s'.menu_id ≠ mid) ∧
       (∀ d ∈ c3DB.dishes, ∀ s ∈ c3DB.submenus, s.menu_id = mid → d.submenu_id = s.id →
         d ∉ (⟨[], [], []⟩ : DB).dishes) ∧
       (∀ sid, get_submenu_by_id ⟨[], [], []⟩ mid sid = none) ∧
       (∀ sid did, get_dish_by_id ⟨[], [], []⟩ sid mid did = none))) :=
  ⟨by decide, rfl,
   C3_cascade_delete_and_no_orphans c3DB (Op.deleteMenu uuidM1) ⟨[], [], []⟩ (by decide) rfl⟩

/-! ### Claim C7: the commit-time duplicate handler exists only for dishes -/

def c7DB : DB := ⟨[⟨uuidM1, "menu1", "about menu1"⟩], [], []⟩

/-- Claim C7 counterexample: a Menu create whose title pre-check passes (the
title is fresh) but whose insert violates the storage's unique constraint
(the caller supplied an id that already exists) fails with the raw
`IntegrityError` — `create_menu` has no exception handler, so the violation
is *not* surfaced as the server-side duplicate-record error the claim
requires of every create operation. -/
theorem C7_counterexample_menu_create_unhandled :
    router_create_menu c7DB "g" ⟨some uuidM1, "menu2", "m2"⟩ = .error .integrity ∧
    Err.integrity ≠ Err.http 500 "A duplicate record already exists" :=
  ⟨rfl, by decide⟩

/-- Claim C7 as amended: only the Dish create catches the commit-time
constraint violation.  Whenever `create_dish`'s UUID gates pass and the
storage's constraint check rejects the inserted row, it returns the
server-side `500 "A duplicate record already exists"` error (crud.py lines
156-163); the Menu and SubMenu creates propagate the raw `IntegrityError`
unhandled. -/
theorem C7_dish_create_surfaces_duplicate_record (db : DB) (g mid sid : String)
    (p : DishPayload)
    (hm : is_valid_uuid mid = true) (hsub : is_valid_uuid sid = true)
    (hfail : commitOk ⟨db.menus, db.submenus,
      db.dishes ++ [⟨p.id.getD g, p.title, p.description,
        quantizeHalfUp p.price, sid⟩]⟩ = false) :
    create_dish db g mid sid p =
      .error (.http 500 "A duplicate record already exists") := by
  simp [create_dish, hm, hsub, hfail]

def c7DishDB : DB :=
  ⟨[⟨uuidM1, "menu1", "about menu1"⟩], [⟨uuidS1, "submenu1", "s1", uuidM1⟩],
   [⟨uuidD1, "dish1", "d1", 1350, uuidS1⟩]⟩

/-- Witness for the amended C7: creating a second dish with the already
registered title "dish1" fails the commit check and surfaces the 500
duplicate-record error. -/
theorem C7_dish_create_surfaces_duplicate_record_witness :
    is_valid_uuid uuidM1 = true ∧ is_valid_uuid uuidS1 = true ∧
    commitOk ⟨c7DishDB.menus, c7DishDB.submenus,
      c7DishDB.dishes ++ [⟨(some uuidD2 : Option String).getD "g", "dish1", "d",
        quantizeHalfUp ⟨500, 2⟩, uuidS1⟩]⟩ = false ∧
    create_dish c7DishDB "g" uuidM1 uuidS1 ⟨some uuidD2, "dish1", "d", ⟨500, 2⟩⟩ =
      .error (.http 500 "A duplicate record already exists") :=
  ⟨rfl, rfl, rfl,
   C7_dish_create_surfaces_duplicate_record c7DishDB "g" uuidM1 uuidS1
     ⟨some uuidD2, "dish1", "d", ⟨500, 2⟩⟩ rfl rfl rfl⟩

/-! ### Claim C8: partial-update semantics of the Dish update -/

lemma update_dish_ok_char {db : DB} {mid sid did : String} {p : DishPayload}
    {pr : Option DishRow × DB} (h : update_dish db mid sid did p = .ok pr) :
    ∃ d0, (db.dishes.filter (fun d => d.id == did)).head? = some d0 ∧
      pr.2 = ⟨db.menus, db.submenus,
        db.dishes.map (fun r => if r.id == d0.id then applyDishPayload d0 p else r)⟩ := by
  unfold update_dish at h
  split at h
  · exact absurd h (by simp)
  · split at h
    · exact absurd h (by simp)
    · split at h
      · exact absurd h (by simp)
      · rename_i d0 hd0
        refine ⟨d0, hd0, ?_⟩
        dsimp only at h
        split at h
        · simp only [Except.ok.injEq] at h
          rw [← h]
        · exact absurd h (by simp)

/-- Claim C8: the Dish update applies exactly the fields present in the
payload.  In `schemas.DishUpdate` the fields `title`, `description` and
`price` are required (pydantic rejects a payload missing any of them before
the crud layer runs) and `id` is the only optional field; a dish row also
carries `submenu_id`, which no update payload ever contains.  For a
successful update whose payload omits `id`: the target row keeps its prior
`id` and `submenu_id`, receives the payload's `title`, `description` and
(quantized) `price`, and every other row — and the menu and submenu tables —
is unchanged. -/
theorem C8_partial_update_preserves_absent_fields (db : DB) (mid sid did : String)
    (p : DishPayload) (pr : Option DishRow × DB) (d0 : DishRow)
    (hid : p.id = none)
    (h : update_dish db mid sid did p = .ok pr)
    (hd0 : (db.dishes.filter (fun d => d.id == did)).head? = some d0) :
    pr.2.menus = db.menus ∧ pr.2.submenus = db.submenus ∧
    pr.2.dishes = db.dishes.map (fun r => if r.id == d0.id then
      ⟨d0.id, p.title, p.description, quantizeHalfUp p.price, d0.submenu_id⟩ else r) := by
  obtain ⟨d1, hd1, hdb⟩ := update_dish_ok_char h
  have hd01 : d1 = d0 := by
    rw [hd1] at hd0
    injection hd0
  subst hd01
  rw [hdb]
  refine ⟨rfl, rfl, ?_⟩
  simp [applyDishPayload, hid]

def c8DB : DB :=
  ⟨[⟨uuidM1, "menu1", "about menu1"⟩], [⟨uuidS1, "submenu1", "s1", uuidM1⟩],
   [⟨uuidD1, "dish1", "d1", 1350, uuidS1⟩]⟩

def c8DBAfter : DB :=
  ⟨[⟨uuidM1, "menu1", "about menu1"⟩], [⟨uuidS1, "submenu1", "s1", uuidM1⟩],
   [⟨uuidD1, "dish1b", "new", 778, uuidS1⟩]⟩

/-- Witness for C8: updating the dish with a payload that omits `id`
(price "7.777") keeps `id` and `submenu_id`, stores price 7.78, and leaves
the other tables unchanged. -/
theorem C8_partial_update_preserves_absent_fields_witness :
    (⟨none, "dish1b", "new", ⟨7777, 3⟩⟩ : DishPayload).id = none ∧
    update_dish c8DB uuidM1 uuidS1 uuidD1 ⟨none, "dish1b", "new", ⟨7777, 3⟩⟩ =
      .ok (some ⟨uuidD1, "dish1b", "new", 778, uuidS1⟩, c8DBAfter) ∧
    (c8DB.dishes.filter (fun d => d.id == uuidD1)).head? =
      some ⟨uuidD1, "dish1", "d1", 1350, uuidS1⟩ ∧
    (c8DBAfter.menus = c8DB.menus ∧ c8DBAfter.submenus = c8DB.submenus ∧
     c8DBAfter.dishes = c8DB.dishes.map (fun r =>
       if r.id == (⟨uuidD1, "dish1", "d1", 1350, uuidS1⟩ : DishRow).id then
         ⟨(⟨uuidD1, "dish1", "d1", 1350, uuidS1⟩ : DishRow).id, "dish1b", "new",
          quantizeHalfUp ⟨7777, 3⟩,
          (⟨uuidD1, "dish1", "d1", 1350, uuidS1⟩ : DishRow).submenu_id⟩
       else r)) :=
  ⟨rfl, rfl, rfl,
   C8_partial_update_preserves_absent_fields c8DB uuidM1 uuidS1 uuidD1
     ⟨none, "dish1b", "new", ⟨7777, 3⟩⟩
     (some ⟨uuidD1, "dish1b", "new", 778, uuidS1⟩, c8DBAfter)
     ⟨uuidD1, "dish1", "d1", 1350, uuidS1⟩ rfl rfl rfl⟩

/-! ### Claim C9: price quantization and serialization -/

def decimalDigitChars : List Char := lowHexDigitChars

/-- Digits of `n`, most significant first (`str(int)`); fuel makes the
recursion structural, and fuel `n + 1` always suffices. -/
def natReprGo : Nat → Nat → List Char
  | 0, _ => []
  | fuel + 1, n =>
    if n < 10 then [Nat.digitChar n]
    else natReprGo fuel (n / 10) ++ [Nat.digitChar (n % 10)]

def natRepr (n : Nat) : List Char := natReprGo (n + 1) n

/-- `str` of a stored `Numeric(10, 2)` value: optional sign, the integer
part, the dot, and exactly the two fractional digits of the scale. -/
def renderPrice (cents : Int) : List Char :=
  (if cents < 0 then ['-'] else []) ++ natRepr (cents.natAbs / 100) ++
    '.' :: [Nat.digitChar (cents.natAbs / 10 % 10), Nat.digitChar (cents.natAbs % 10)]

lemma digitChar_mem_decimal {n : Nat} (h : n < 10) :
    Nat.digitChar n ∈ decimalDigitChars := by
  interval_cases n <;> decide

lemma natReprGo_no_dot (fuel : Nat) : ∀ n, '.' ∉ natReprGo fuel n := by
  induction fuel with
  | zero => intro n; simp [natReprGo]
  | succ f ih =>
    intro n
    rw [natReprGo]
    split
    · rename_i hlt
      intro hc
      simp only [List.mem_singleton] at hc
      have hd := digitChar_mem_decimal hlt
      rw [← hc] at hd
      exact absurd hd (by decide)
    · intro hc
      rcases List.mem_append.mp hc with hc | hc
      · exact ih _ hc
      · simp only [List.mem_singleton] at hc
        have hd := digitChar_mem_decimal (Nat.mod_lt n (by omega))
        rw [← hc] at hd
        exact absurd hd (by decide)

lemma renderPrice_shape (cents : Int) :
    ∃ pre d1 d2, renderPrice cents = pre ++ '.' :: [d1, d2] ∧
      '.' ∉ pre ∧ d1 ∈ decimalDigitChars ∧ d2 ∈ decimalDigitChars := by
  refine ⟨(if cents < 0 then ['-'] else []) ++ natRepr (cents.natAbs / 100),
    Nat.digitChar (cents.natAbs / 10 % 10), Nat.digitChar (cents.natAbs % 10),
    by simp [renderPrice], ?_,
    digitChar_mem_decimal (Nat.mod_lt _ (by omega)),
    digitChar_mem_decimal (Nat.mod_lt _ (by omega))⟩
  intro hc
  rcases List.mem_append.mp hc with hc | hc
  · split at hc
    · simp at hc
    · simp at hc
  · exact natReprGo_no_dot _ _ hc

lemma half_up_div_char (m d : Nat) (hd0 : 0 < d) (h2 : 2 ∣ d) :
    d * ((m + d / 2) / d) * 2 ≤ 2 * m + d ∧
    2 * m < d * ((m + d / 2) / d) * 2 + d := by
  have hdm := Nat.div_add_mod (m + d / 2) d
  have hr : (m + d / 2) % d < d := Nat.mod_lt _ hd0
  set q := (m + d / 2) / d with hq
  set r := (m + d / 2) % d with hrr
  set A := d * q with hA
  omega

lemma create_dish_ok_char {db : DB} {g mid sid : String} {p : DishPayload}
    {pr : Option DishRow × DB} (h : create_dish db g mid sid p = .ok pr) :
    pr.2 = ⟨db.menus, db.submenus, db.dishes ++
      [⟨p.id.getD g, p.title, p.description, quantizeHalfUp p.price, sid⟩]⟩ := by
  simp only [create_dish] at h
  split at h
  · split at h
    · simp only [Except.ok.injEq] at h
      rw [← h]
    · exact absurd h (by simp)
  · exact absurd h (by simp)

/-- Claim C9: every successfully created Dish stores the supplied price
rounded to cents by `quantizeHalfUp`; for a price with more than two
fractional digits (`2 < e`) the stored cent value `q = quantNat m e`
satisfies `|m/10^(e-2) - q| ≤ 1/2` with the tie rounded up (the two
inequalities below), for at most two fractional digits the conversion is
exact; and the rendering always consists of a dot-free prefix, a dot, and
exactly two decimal digits.  In particular 7.777 is stored as 778 cents and
rendered "7.78". -/
theorem C9_price_two_fractional_digits_half_up :
    (∀ (db : DB) (g mid sid : String) (p : DishPayload) (pr : Option DishRow × DB),
      create_dish db g mid sid p = .ok pr →
      pr.2.dishes = db.dishes ++
        [⟨p.id.getD g, p.title, p.description, quantizeHalfUp p.price, sid⟩]) ∧
    (∀ m e : Nat, 2 < e →
      10 ^ (e - 2) * quantNat m e * 2 ≤ 2 * m + 10 ^ (e - 2) ∧
      2 * m < 10 ^ (e - 2) * quantNat m e * 2 + 10 ^ (e - 2)) ∧
    (∀ m e : Nat, e ≤ 2 → quantNat m e * 10 ^ e = m * 100) ∧
    (∀ cents : Int, ∃ pre d1 d2, renderPrice cents = pre ++ '.' :: [d1, d2] ∧
      '.' ∉ pre ∧ d1 ∈ decimalDigitChars ∧ d2 ∈ decimalDigitChars) ∧
    (quantizeHalfUp ⟨7777, 3⟩ = 778 ∧ renderPrice 778 = "7.78".data) := by
  refine ⟨?_, ?_, ?_, renderPrice_shape, by decide, by decide⟩
  · intro db g mid sid p pr h
    rw [create_dish_ok_char h]
  · intro m e he
    unfold quantNat
    rw [if_neg (by omega)]
    exact half_up_div_char m (10 ^ (e - 2)) (Nat.pow_pos (by norm_num))
      (dvd_pow (by norm_num) (by omega))
  · intro m e he
    unfold quantNat
    rw [if_pos he, mul_assoc, ← pow_add]
    have h2 : 2 - e + e = 2 := by omega
    rw [h2]
    norm_num

def c9DB : DB :=
  ⟨[⟨uuidM1, "menu1", "about menu1"⟩], [⟨uuidS1, "submenu1", "s1", uuidM1⟩], []⟩

/-- Witness for C9: creating a dish with price 7.777 stores 778 cents. -/
theorem C9_price_two_fractional_digits_half_up_witness :
    create_dish c9DB "g" uuidM1 uuidS1 ⟨some uuidD1, "dish9", "d9", ⟨7777, 3⟩⟩ =
      .ok (some ⟨uuidD1, "dish9", "d9", 778, uuidS1⟩,
           ⟨c9DB.menus, c9DB.submenus, [⟨uuidD1, "dish9", "d9", 778, uuidS1⟩]⟩) ∧
    ((⟨c9DB.menus, c9DB.submenus, [⟨uuidD1, "dish9", "d9", 778, uuidS1⟩]⟩ : DB)).dishes =
      c9DB.dishes ++ [⟨(some uuidD1 : Option String).getD "g", "dish9", "d9",
        quantizeHalfUp ⟨7777, 3⟩, uuidS1⟩] ∧
    (2 < 3 ∧
     10 ^ (3 - 2) * quantNat 7777 3 * 2 ≤ 2 * 7777 + 10 ^ (3 - 2) ∧
     2 * 7777 < 10 ^ (3 - 2) * quantNat 7777 3 * 2 + 10 ^ (3 - 2)) :=
  ⟨rfl,
   C9_price_two_fractional_digits_half_up.1 c9DB "g" uuidM1 uuidS1
     ⟨some uuidD1, "dish9", "d9", ⟨7777, 3⟩⟩
     (some ⟨uuidD1, "dish9", "d9", 778, uuidS1⟩,
      ⟨c9DB.menus, c9DB.submenus, [⟨uuidD1, "dish9", "d9", 778, uuidS1⟩]⟩) rfl,
   by decide,
   (C9_price_two_fractional_digits_half_up.2.1 7777 3 (by decide)).1,
   (C9_price_two_fractional_digits_half_up.2.1 7777 3 (by decide)).2⟩

/-! ### Claim C10: updates perform no title-uniqueness pre-check -/

lemma update_menu_error_classes {db : DB} {mid : String} {p : MenuBasePayload}
    {e : Err} (h : update_menu db mid p = .error e) :
    e = .attrNone ∨ e = .integrity := by
  unfold update_menu at h
  split at h
  · left
    injection h with h
    exact h.symm
  · dsimp only at h
    split at h
    · exact absurd h (by simp)
    · right
      injection h with h
      exact h.symm

lemma update_submenu_error_classes {db : DB} {mid sid : String} {p : MenuBasePayload}
    {e : Err} (h : update_submenu db mid sid p = .error e) :
    e = .http 404 "Menu not found" ∨ e = .http 404 "Submenu not found" ∨
    e = .integrity := by
  unfold update_submenu at h
  split at h
  · left
    injection h with h
    exact h.symm
  · split at h
    · right; left
      injection h with h
      exact h.symm
    · dsimp only at h
      split at h
      · exact absurd h (by simp)
      · right; right
        injection h with h
        exact h.symm

lemma update_dish_error_classes {db : DB} {mid sid did : String} {p : DishPayload}
    {e : Err} (h : update_dish db mid sid did p = .error e) :
    e = .http 404 "Menu not found" ∨ e = .http 404 "Submenu not found" ∨
    e = .integrity := by
  unfold update_dish at h
  split at h
  · left
    injection h with h
    exact h.symm
  · split at h
    · right; left
      injection h with h
      exact h.symm
    · split at h
      · right; left
        injection h with h
        exact h.symm
      · dsimp only at h
        split at h
        · exact absurd h (by simp)
        · right; right
          injection h with h
          exact h.symm

def uuidM2 : String := "77777777-7777-4777-8777-777777777777"

def c10DB : DB :=
  ⟨[⟨uuidM1, "menu1", "m1"⟩, ⟨uuidM2, "menu2", "m2"⟩], [], []⟩

/-- Claim C10: none of the three update operations ever raises the
"already registered" client error — every error they can produce is a
not-found, the `AttributeError` slip of `update_menu`, or the storage's
`IntegrityError` — and a payload whose title duplicates a different existing
row of the same type surfaces as exactly that unhandled commit-time
constraint failure, as the concrete last conjunct shows (renaming menu
"menu1" to the already-taken "menu2"). -/
theorem C10_updates_never_already_registered :
    (∀ (db : DB) (mid : String) (p : MenuBasePayload) (e : Err),
      update_menu db mid p = .error e →
      ∀ s : String, e ≠ .http 400 s) ∧
    (∀ (db : DB) (mid sid : String) (p : MenuBasePayload) (e : Err),
      update_submenu db mid sid p = .error e →
      ∀ s : String, e ≠ .http 400 s) ∧
    (∀ (db : DB) (mid sid did : String) (p : DishPayload) (e : Err),
      update_dish db mid sid did p = .error e →
      ∀ s : String, e ≠ .http 400 s) ∧
    update_menu c10DB uuidM1 ⟨none, "menu2", "m1"⟩ = .error .integrity := by
  refine ⟨?_, ?_, ?_, rfl⟩
  · intro db mid p e h s
    rcases update_menu_error_classes h with rfl | rfl <;> simp
  · intro db mid sid p e h s
    rcases update_submenu_error_classes h with rfl | rfl | rfl <;> simp
  · intro db mid sid did p e h s
    rcases update_dish_error_classes h with rfl | rfl | rfl <;> simp

/-- Witness for C10 at concrete inputs: an update whose target is missing
fails with the `AttributeError` slip, which is not a 400 client error. -/
theorem C10_updates_never_already_registered_witness :
    update_menu (⟨[], [], []⟩ : DB) uuidM1 ⟨none, "menu9", "m9"⟩ = .error .attrNone ∧
    Err.attrNone ≠ Err.http 400 "Title of Menu already registered" :=
  ⟨rfl, C10_updates_never_already_registered.1 ⟨[], [], []⟩ uuidM1
    ⟨none, "menu9", "m9"⟩ .attrNone rfl "Title of Menu already registered"⟩

end Restaurant
